import Mathlib

/-!
# KDecoration2: frame hit-testing, mutators and pointer-event routing

A shallow embedding of `src/src/decoration.cpp` (class `Decoration` and its
`Decoration::Private`) and of the window-state test double
`src/autotests/mockclient.cpp` (class `MockClient`).

Conventions of the embedding:

* C++ `int` values are mathematical integers (`Int`).  Signed overflow is
  undefined behaviour in C++, so the embedding describes the executions in
  which no intermediate sum or difference leaves the `int` range.
* Qt value types (`QPoint`, `QSize`, `QMargins`, `QRect`, `QRectF`,
  `Qt::MouseButtons`) are library types; the members the program calls are
  transcribed from the Qt 5 headers.
* A Qt signal emission is recorded by appending to the `emitted` trace of the
  state; a call of `DecorationBridge::update` is recorded in `bridgeUpdates`;
  a call of `QCoreApplication::sendEvent` on a button is recorded in
  `delivered`.
-/

namespace KDecoration2

/-! ## Qt value types -/

/-- Qt::WindowFrameSection, the ten frame regions. -/
inductive WindowFrameSection where
  | NoSection
  | LeftSection
  | TopLeftSection
  | TopSection
  | TopRightSection
  | RightSection
  | BottomRightSection
  | BottomSection
  | BottomLeftSection
  | TitleBarArea
  deriving DecidableEq, Repr

/-- QPoint: integer point, `x()` and `y()`. -/
structure QPoint where
  x : Int
  y : Int
  deriving DecidableEq, Repr

/-- QSize: `QSize(w, h)` with `width()` and `height()`. -/
structure QSize where
  width : Int
  height : Int
  deriving DecidableEq, Repr

/-- QMargins: `QMargins(left, top, right, bottom)`; `operator==` is componentwise. -/
structure QMargins where
  left : Int
  top : Int
  right : Int
  bottom : Int
  deriving DecidableEq, Repr

/-- QRect: Qt stores the two corners `x1, y1, x2, y2` (both inclusive);
`operator==` compares the four coordinates. -/
structure QRect where
  x1 : Int
  y1 : Int
  x2 : Int
  y2 : Int
  deriving DecidableEq, Repr

namespace QRect

/-- The constructor `QRect(int left, int top, int width, int height)`. -/
def ofXYWH (left top width height : Int) : QRect :=
  ⟨left, top, left + width - 1, top + height - 1⟩

/-- The constructor `QRect(const QPoint &topLeft, const QSize &size)`. -/
def ofPointSize (topLeft : QPoint) (size : QSize) : QRect :=
  ⟨topLeft.x, topLeft.y, topLeft.x + size.width - 1, topLeft.y + size.height - 1⟩

/-- The default constructor `QRect()`: the null rectangle `(0, 0, -1, -1)`. -/
def null : QRect := ⟨0, 0, -1, -1⟩

/-- The member `QRect::x()`. -/
def x (r : QRect) : Int := r.x1

/-- The member `QRect::y()`. -/
def y (r : QRect) : Int := r.y1

/-- The member `QRect::top()`. -/
def top (r : QRect) : Int := r.y1

/-- The member `QRect::bottom()`: the last row inside, `y() + height() - 1`. -/
def bottom (r : QRect) : Int := r.y2

/-- The member `QRect::width()`. -/
def width (r : QRect) : Int := r.x2 - r.x1 + 1

/-- The member `QRect::height()`. -/
def height (r : QRect) : Int := r.y2 - r.y1 + 1

/-- The member `QRect::isNull()`. -/
def isNull (r : QRect) : Bool := r.x2 == r.x1 - 1 && r.y2 == r.y1 - 1

/-- The member `QRect::contains(const QPoint &p, bool proper = false)` with
`proper == false`, as in qrect.cpp: the corners are normalised first, then the
point is compared against the inclusive bounds. -/
def contains (r : QRect) (p : QPoint) : Bool :=
  let l := if r.x2 < r.x1 - 1 then r.x2 else r.x1
  let rr := if r.x2 < r.x1 - 1 then r.x1 else r.x2
  if p.x < l || p.x > rr then false
  else
    let t := if r.y2 < r.y1 - 1 then r.y2 else r.y1
    let b := if r.y2 < r.y1 - 1 then r.y1 else r.y2
    if p.y < t || p.y > b then false
    else true

end QRect

/-- QRectF: Qt stores `xp, yp, w, h`.  Coordinates are exact rationals here
(every finite `qreal` is one). -/
structure QRectF where
  xp : ℚ
  yp : ℚ
  w : ℚ
  h : ℚ
  deriving DecidableEq

namespace QRectF

/-- The member `QRectF::contains(const QPointF &p)` as in qrect.cpp, applied to
the `QPointF` made from an integer `QPoint`. -/
def contains (r : QRectF) (p : QPoint) : Bool :=
  let l := if r.w < 0 then r.xp + r.w else r.xp
  let rr := if r.w < 0 then r.xp else r.xp + r.w
  if l == rr then false
  else if (p.x : ℚ) < l || (p.x : ℚ) > rr then false
  else
    let t := if r.h < 0 then r.yp + r.h else r.yp
    let b := if r.h < 0 then r.yp else r.yp + r.h
    if t == b then false
    else if (p.y : ℚ) < t || (p.y : ℚ) > b then false
    else true

end QRectF

/-- Qt::MouseButtons: a `QFlags` bit mask over Qt::MouseButton. -/
abbrev MouseButtons := Nat

/-- Qt::NoButton. -/
def NoButton : MouseButtons := 0
/-- Qt::LeftButton. -/
def LeftButton : MouseButtons := 1
/-- Qt::RightButton. -/
def RightButton : MouseButtons := 2
/-- Qt::MiddleButton. -/
def MiddleButton : MouseButtons := 4

/-- The member `QFlags::testFlag(flag)`:
`(i & flag) == flag && (flag != 0 || i == flag)`. -/
def testFlag (i : MouseButtons) (flag : MouseButtons) : Bool :=
  (i &&& flag) == flag && (flag != 0 || i == flag)

/-! ## The window-state test double (`mockclient.cpp`) -/

/-- The signals whose emission the embedding records.  The first six are
signals of `Decoration`; the last three are signals of `DecoratedClient`,
emitted by `MockClient` through `client()`. -/
inductive Signal where
  | sectionUnderMouseChanged (section_ : WindowFrameSection)
  | bordersChanged
  | resizeOnlyBordersChanged
  | titleBarChanged
  | opaqueChanged (value : Bool)
  | shadowChanged (value : Nat)
  | maximizedHorizontallyChanged (value : Bool)
  | maximizedVerticallyChanged (value : Bool)
  | maximizedChanged (value : Bool)
  deriving DecidableEq, Repr

/-- The members of `MockClient` read or written by the modelled functions.
`DecoratedClient` (reached through `d->client`) forwards `width()`, `height()`
and `requestToggleMaximization` to this private implementation. -/
structure MockClient where
  m_width : Int
  m_height : Int
  m_maximizedHorizontally : Bool
  m_maximizedVertically : Bool
  deriving DecidableEq, Repr

namespace MockClient

/-- MockClient::width. -/
def width (c : MockClient) : Int := c.m_width

/-- MockClient::height. -/
def height (c : MockClient) : Int := c.m_height

/-- MockClient::isMaximizedHorizontally. -/
def isMaximizedHorizontally (c : MockClient) : Bool := c.m_maximizedHorizontally

/-- MockClient::isMaximizedVertically. -/
def isMaximizedVertically (c : MockClient) : Bool := c.m_maximizedVertically

/-- MockClient::isMaximized. -/
def isMaximized (c : MockClient) : Bool :=
  c.isMaximizedHorizontally && c.isMaximizedVertically

/-- MockClient::setWidth (the `widthChanged` signal is not recorded). -/
def setWidth (c : MockClient) (w : Int) : MockClient := { c with m_width := w }

/-- MockClient::setHeight (the `heightChanged` signal is not recorded). -/
def setHeight (c : MockClient) (h : Int) : MockClient := { c with m_height := h }

/-- MockClient::requestToggleMaximization: the new client and the signals
emitted, in emission order. -/
def requestToggleMaximization (c : MockClient) (buttons : MouseButtons) :
    MockClient × List Signal := Id.run do
  let mut m := c
  let mut out : List Signal := []
  let mut maximizedHorizontally := m.m_maximizedHorizontally
  let mut maximizedVertically := m.m_maximizedVertically
  if testFlag buttons LeftButton then
    maximizedHorizontally := !m.m_maximizedHorizontally
    maximizedVertically := !m.m_maximizedVertically
  if testFlag buttons MiddleButton then
    maximizedHorizontally := !m.m_maximizedHorizontally
  if testFlag buttons RightButton then
    maximizedVertically := !m.m_maximizedVertically
  let wasMaximized := m.isMaximized
  if m.m_maximizedHorizontally != maximizedHorizontally then
    m := { m with m_maximizedHorizontally := maximizedHorizontally }
    out := out ++ [Signal.maximizedHorizontallyChanged m.m_maximizedHorizontally]
  if m.m_maximizedVertically != maximizedVertically then
    m := { m with m_maximizedVertically := maximizedVertically }
    out := out ++ [Signal.maximizedVerticallyChanged m.m_maximizedVertically]
  if wasMaximized != m.isMaximized then
    out := out ++ [Signal.maximizedChanged m.isMaximized]
  return (m, out)

end MockClient

/-! ## Buttons and events -/

/-- The `QEvent::Type` values that `Decoration::event` dispatches. -/
inductive QEventType where
  | HoverEnter
  | HoverLeave
  | HoverMove
  | MouseButtonPress
  | MouseButtonRelease
  | MouseMove
  | Wheel
  deriving DecidableEq, Repr

/-- The part of a `QHoverEvent` / `QMouseEvent` / `QWheelEvent` the routing
reads: its type, `pos()` and, for mouse events, `button()`. -/
structure QEvent where
  type : QEventType
  pos : QPoint
  button : MouseButtons
  deriving DecidableEq, Repr

/-- The members of a `DecorationButton` the routing reads: `isEnabled()`,
`isVisible()`, `isHovered()`, `isPressed()`, `acceptedButtons()` and
`geometry()`. -/
structure DecorationButton where
  enabled : Bool
  visible : Bool
  hovered : Bool
  pressed : Bool
  acceptedButtons : MouseButtons
  geometry : QRectF
  deriving DecidableEq

/-- One call of `QCoreApplication::sendEvent(button, event)`: the position of
the receiving button in `d->buttons` and the type of the event it was sent. -/
structure Delivery where
  receiver : Nat
  type : QEventType
  deriving DecidableEq, Repr

/-- Modelled from the spec: `DecorationButton::event` (decorationbutton.cpp) is
not among the sources.  A button becomes hovered when it receives a HoverEnter
and un-hovered when it receives a HoverLeave; it becomes pressed when it
receives a press of a pointer button it accepts and stops being pressed when it
receives the release of a pointer button it accepts.  Other events leave the
four flags unchanged. -/
def DecorationButton.event (b : DecorationButton) (e : QEvent) : DecorationButton :=
  match e.type with
  | .HoverEnter => { b with hovered := true }
  | .HoverLeave => { b with hovered := false }
  | .MouseButtonPress =>
      if testFlag b.acceptedButtons e.button then { b with pressed := true } else b
  | .MouseButtonRelease =>
      if testFlag b.acceptedButtons e.button then { b with pressed := false } else b
  | _ => b

/-! ## The decoration (`decoration.cpp`) -/

/-- The state of a `Decoration`: the members of `Decoration::Private`
(`sectionUnderMouse`, `borders`, `resizeOnlyBorders`, `titleBar`, the opaque
flag `d->opaque`, `shadow`, `buttons`), the value `settings->largeSpacing()`,
the client behind `d->client`, and the three traces. A `QSharedPointer` is the
address it holds (`0` for the null pointer), which is what its `operator==`
compares. -/
structure Decoration where
  sectionUnderMouse : WindowFrameSection
  borders : QMargins
  resizeOnlyBorders : QMargins
  titleBar : QRect
  opaqueFlag : Bool
  shadow : Nat
  largeSpacing : Int
  client : MockClient
  buttons : List DecorationButton
  emitted : List Signal
  bridgeUpdates : List QRect
  delivered : List Delivery
  deriving DecidableEq

namespace Decoration

/-- Decoration::size. -/
def size (d : Decoration) : QSize :=
  let b := d.borders
  ⟨d.client.width + b.left + b.right, d.client.height + b.top + b.bottom⟩

/-- Decoration::rect. -/
def rect (d : Decoration) : QRect :=
  QRect.ofPointSize ⟨0, 0⟩ d.size

/-- Decoration::update(const QRect &r): `d->bridge->update(this, r.isNull() ? rect() : r)`. -/
def update (d : Decoration) (r : QRect) : Decoration :=
  { d with bridgeUpdates := d.bridgeUpdates ++ [if r.isNull then d.rect else r] }

/-- Decoration::update(): `update(QRect())`. -/
def updateAll (d : Decoration) : Decoration :=
  d.update QRect.null

/-- The statement `emit sig`: the signal is recorded, and the slot connected in
the constructor `Decoration::Decoration`
(`connect(this, &Decoration::bordersChanged, this, [this]{ update(); })`)
runs synchronously when the signal is `bordersChanged`. -/
def emit (d : Decoration) (sig : Signal) : Decoration :=
  let d1 := { d with emitted := d.emitted ++ [sig] }
  match sig with
  | .bordersChanged => d1.updateAll
  | _ => d1

/-- Decoration::Private::setSectionUnderMouse. -/
def setSectionUnderMouse (d : Decoration) (section_ : WindowFrameSection) : Decoration :=
  if d.sectionUnderMouse = section_ then d
  else
    let d1 := { d with sectionUnderMouse := section_ }
    d1.emit (.sectionUnderMouseChanged d1.sectionUnderMouse)

/-- Decoration::Private::updateSectionUnderMouse. -/
def updateSectionUnderMouse (d : Decoration) (mousePosition : QPoint) : Decoration :=
  if d.titleBar.contains mousePosition then
    d.setSectionUnderMouse .TitleBarArea
  else
    let size := d.size
    let corner := 2 * d.largeSpacing
    let left : Bool := mousePosition.x < d.borders.left
    let top : Bool := mousePosition.y < d.borders.top
    let bottom : Bool := size.height - mousePosition.y ≤ d.borders.bottom
    let right : Bool := size.width - mousePosition.x ≤ d.borders.right
    if left then
      if top && mousePosition.y < d.titleBar.top + corner then
        d.setSectionUnderMouse .TopLeftSection
      else if size.height - mousePosition.y ≤ d.borders.bottom + corner
          && mousePosition.y > d.titleBar.bottom then
        d.setSectionUnderMouse .BottomLeftSection
      else
        d.setSectionUnderMouse .LeftSection
    else if right then
      if top && mousePosition.y < d.titleBar.top + corner then
        d.setSectionUnderMouse .TopRightSection
      else if size.height - mousePosition.y ≤ d.borders.bottom + corner
          && mousePosition.y > d.titleBar.bottom then
        d.setSectionUnderMouse .BottomRightSection
      else
        d.setSectionUnderMouse .RightSection
    else if bottom then
      if mousePosition.y > d.titleBar.bottom then
        if mousePosition.x < d.borders.left + corner then
          d.setSectionUnderMouse .BottomLeftSection
        else if size.width - mousePosition.x ≤ d.borders.right + corner then
          d.setSectionUnderMouse .BottomRightSection
        else
          d.setSectionUnderMouse .BottomSection
      else
        d.setSectionUnderMouse .TitleBarArea
    else if top then
      if mousePosition.y < d.titleBar.top then
        if mousePosition.x < d.borders.left + corner then
          d.setSectionUnderMouse .TopLeftSection
        else if size.width - mousePosition.x ≤ d.borders.right + corner then
          d.setSectionUnderMouse .TopRightSection
        else
          d.setSectionUnderMouse .TopSection
      else
        d.setSectionUnderMouse .TitleBarArea
    else
      d.setSectionUnderMouse .NoSection

/-- Decoration::setBorders (the first `DELEGATE(name, variableName, type, emitValue)`
instance). -/
def setBorders (d : Decoration) (a : QMargins) : Decoration :=
  if d.borders = a then d
  else
    let d1 := { d with borders := a }
    d1.emit .bordersChanged

/-- Decoration::setResizeOnlyBorders. -/
def setResizeOnlyBorders (d : Decoration) (a : QMargins) : Decoration :=
  if d.resizeOnlyBorders = a then d
  else
    let d1 := { d with resizeOnlyBorders := a }
    d1.emit .resizeOnlyBordersChanged

/-- Decoration::setTitleBar. -/
def setTitleBar (d : Decoration) (a : QRect) : Decoration :=
  if d.titleBar = a then d
  else
    let d1 := { d with titleBar := a }
    d1.emit .titleBarChanged

/-- Decoration::setOpaque. -/
def setOpaque (d : Decoration) (a : Bool) : Decoration :=
  if d.opaqueFlag = a then d
  else
    let d1 := { d with opaqueFlag := a }
    d1.emit (.opaqueChanged d1.opaqueFlag)

/-- Decoration::setShadow. -/
def setShadow (d : Decoration) (a : Nat) : Decoration :=
  if d.shadow = a then d
  else
    let d1 := { d with shadow := a }
    d1.emit (.shadowChanged d1.shadow)

/-- Decoration::requestToggleMaximization: `d->client->d->requestToggleMaximization(buttons)`;
the client's signals are appended to the trace. -/
def requestToggleMaximization (d : Decoration) (buttons : MouseButtons) : Decoration :=
  let r := d.client.requestToggleMaximization buttons
  { d with client := r.1, emitted := d.emitted ++ r.2 }

/-- The statement `QCoreApplication::instance()->sendEvent(button, event)` for the
button at position `i` of `d->buttons`: the button handles the event and the
delivery is recorded. -/
def sendEvent (i : Nat) (button : DecorationButton) (event : QEvent) :
    DecorationButton × List Delivery :=
  (button.event event, [⟨i, event.type⟩])

/-- The body of the loop of `Decoration::hoverMoveEvent` for the button at
position `i`. -/
def hoverMoveBody (event : QEvent) (i : Nat) (button : DecorationButton) :
    DecorationButton × List Delivery :=
  if !button.enabled || !button.visible then (button, [])
  else
    let hovered := button.hovered
    let contains := button.geometry.contains event.pos
    if !hovered && contains then
      sendEvent i button { event with type := .HoverEnter }
    else if hovered && !contains then
      sendEvent i button { event with type := .HoverLeave }
    else if hovered && contains then
      sendEvent i button event
    else (button, [])

/-- The loop `for (DecorationButton *button : d->buttons)` of
`Decoration::hoverMoveEvent` over the buttons from position `i` on: the buttons
after the loop and the deliveries made, in order. -/
def hoverMoveLoop (event : QEvent) : Nat → List DecorationButton →
    List DecorationButton × List Delivery
  | _, [] => ([], [])
  | i, button :: rest =>
    let r1 := hoverMoveBody event i button
    let r2 := hoverMoveLoop event (i + 1) rest
    (r1.1 :: r2.1, r1.2 ++ r2.2)

/-- Decoration::hoverMoveEvent. -/
def hoverMoveEvent (d : Decoration) (event : QEvent) : Decoration :=
  let r := hoverMoveLoop event 0 d.buttons
  let d1 := { d with buttons := r.1, delivered := d.delivered ++ r.2 }
  d1.updateSectionUnderMouse event.pos

/-- The loop `for (DecorationButton *button : d->buttons) sendEvent(button, event)`
of `Decoration::hoverEnterEvent` and `Decoration::hoverLeaveEvent`, over the
buttons from position `i` on. -/
def sendToAll (event : QEvent) : Nat → List DecorationButton →
    List DecorationButton × List Delivery
  | _, [] => ([], [])
  | i, button :: rest =>
    let r1 := sendEvent i button event
    let r2 := sendToAll event (i + 1) rest
    (r1.1 :: r2.1, r1.2 ++ r2.2)

/-- Decoration::hoverEnterEvent. -/
def hoverEnterEvent (d : Decoration) (event : QEvent) : Decoration :=
  let r := sendToAll event 0 d.buttons
  let d1 := { d with buttons := r.1, delivered := d.delivered ++ r.2 }
  d1.updateSectionUnderMouse event.pos

/-- Decoration::hoverLeaveEvent. -/
def hoverLeaveEvent (d : Decoration) (event : QEvent) : Decoration :=
  let r := sendToAll event 0 d.buttons
  let d1 := { d with buttons := r.1, delivered := d.delivered ++ r.2 }
  d1.setSectionUnderMouse .NoSection

/-- The loop of `Decoration::mouseMoveEvent` over the buttons from position `i`
on: the first pressed button is sent the event and the function returns. -/
def mouseMoveLoop (event : QEvent) : Nat → List DecorationButton →
    List DecorationButton × List Delivery
  | _, [] => ([], [])
  | i, button :: rest =>
    if button.pressed then
      let r := sendEvent i button event
      (r.1 :: rest, r.2)
    else
      let r := mouseMoveLoop event (i + 1) rest
      (button :: r.1, r.2)

/-- Decoration::mouseMoveEvent. -/
def mouseMoveEvent (d : Decoration) (event : QEvent) : Decoration :=
  let r := mouseMoveLoop event 0 d.buttons
  { d with buttons := r.1, delivered := d.delivered ++ r.2 }

/-- The loop of `Decoration::mousePressEvent` over the buttons from position `i`
on.  The third component tells whether the loop reached
`event->setAccepted(true); return;`, that is, whether a hovered button was found. -/
def mousePressLoop (event : QEvent) : Nat → List DecorationButton →
    List DecorationButton × List Delivery × Bool
  | _, [] => ([], [], false)
  | i, button :: rest =>
    if button.hovered then
      if testFlag button.acceptedButtons event.button then
        let r := sendEvent i button event
        (r.1 :: rest, r.2, true)
      else
        (button :: rest, [], true)
    else
      let r := mousePressLoop event (i + 1) rest
      (button :: r.1, r.2.1, r.2.2)

/-- Decoration::mousePressEvent: the state after the call, and whether the
decoration called `event->setAccepted(true)`. -/
def mousePressEvent (d : Decoration) (event : QEvent) : Decoration × Bool :=
  let r := mousePressLoop event 0 d.buttons
  ({ d with buttons := r.1, delivered := d.delivered ++ r.2.1 }, r.2.2)

/-- The loop of `Decoration::mouseReleaseEvent` over the buttons from position
`i` on.  The third component tells whether the loop returned from the function
(a pressed button accepting `event->button()` was found). -/
def mouseReleaseLoop (event : QEvent) : Nat → List DecorationButton →
    List DecorationButton × List Delivery × Bool
  | _, [] => ([], [], false)
  | i, button :: rest =>
    if button.pressed && testFlag button.acceptedButtons event.button then
      let r := sendEvent i button event
      (r.1 :: rest, r.2, true)
    else
      let r := mouseReleaseLoop event (i + 1) rest
      (button :: r.1, r.2.1, r.2.2)

/-- Decoration::mouseReleaseEvent. -/
def mouseReleaseEvent (d : Decoration) (event : QEvent) : Decoration :=
  let r := mouseReleaseLoop event 0 d.buttons
  let d1 := { d with buttons := r.1, delivered := d.delivered ++ r.2.1 }
  if r.2.2 then d1
  else d1.updateSectionUnderMouse event.pos

/-- The loop of `Decoration::wheelEvent` over the buttons from position `i` on.
The third component tells whether `event->setAccepted(true)` was called.  The
point `event->posF()` of the wheel event is `event.pos`. -/
def wheelLoop (event : QEvent) : Nat → List DecorationButton →
    List DecorationButton × List Delivery × Bool
  | _, [] => ([], [], false)
  | i, button :: rest =>
    if button.geometry.contains event.pos then
      let r1 := sendEvent i button event
      let r2 := wheelLoop event (i + 1) rest
      (r1.1 :: r2.1, r1.2 ++ r2.2.1, true)
    else
      let r2 := wheelLoop event (i + 1) rest
      (button :: r2.1, r2.2.1, r2.2.2)

/-- Decoration::wheelEvent: the state after the call, and whether the decoration
called `event->setAccepted(true)`. -/
def wheelEvent (d : Decoration) (event : QEvent) : Decoration × Bool :=
  let r := wheelLoop event 0 d.buttons
  ({ d with buttons := r.1, delivered := d.delivered ++ r.2.1 }, r.2.2)

/-- Decoration::event: the state after the handler selected by
`event->type()` has run (the function returns `true` for each of these types). -/
def event (d : Decoration) (e : QEvent) : Decoration :=
  match e.type with
  | .HoverEnter => d.hoverEnterEvent e
  | .HoverLeave => d.hoverLeaveEvent e
  | .HoverMove => d.hoverMoveEvent e
  | .MouseButtonPress => (d.mousePressEvent e).1
  | .MouseButtonRelease => d.mouseReleaseEvent e
  | .MouseMove => d.mouseMoveEvent e
  | .Wheel => (d.wheelEvent e).1

/-- The value `updateSectionUnderMouse` hands to `setSectionUnderMouse`: the
decision tree of `Decoration::Private::updateSectionUnderMouse` with the state
update left out (see `updateSectionUnderMouse_eq`). -/
def sectionAt (d : Decoration) (mousePosition : QPoint) : WindowFrameSection :=
  if d.titleBar.contains mousePosition then .TitleBarArea
  else
    let size := d.size
    let corner := 2 * d.largeSpacing
    let left : Bool := mousePosition.x < d.borders.left
    let top : Bool := mousePosition.y < d.borders.top
    let bottom : Bool := size.height - mousePosition.y ≤ d.borders.bottom
    let right : Bool := size.width - mousePosition.x ≤ d.borders.right
    if left then
      if top && mousePosition.y < d.titleBar.top + corner then .TopLeftSection
      else if size.height - mousePosition.y ≤ d.borders.bottom + corner
          && mousePosition.y > d.titleBar.bottom then .BottomLeftSection
      else .LeftSection
    else if right then
      if top && mousePosition.y < d.titleBar.top + corner then .TopRightSection
      else if size.height - mousePosition.y ≤ d.borders.bottom + corner
          && mousePosition.y > d.titleBar.bottom then .BottomRightSection
      else .RightSection
    else if bottom then
      if mousePosition.y > d.titleBar.bottom then
        if mousePosition.x < d.borders.left + corner then .BottomLeftSection
        else if size.width - mousePosition.x ≤ d.borders.right + corner then .BottomRightSection
        else .BottomSection
      else .TitleBarArea
    else if top then
      if mousePosition.y < d.titleBar.top then
        if mousePosition.x < d.borders.left + corner then .TopLeftSection
        else if size.width - mousePosition.x ≤ d.borders.right + corner then .TopRightSection
        else .TopSection
      else .TitleBarArea
    else .NoSection

end Decoration

namespace Decoration

/-- A run of hover-move events at the points `ps`, dispatched one after the
other through `hoverMoveEvent`. -/
def hoverMoves (d : Decoration) (ps : List QPoint) : Decoration :=
  ps.foldl (fun s p => s.hoverMoveEvent ⟨.HoverMove, p, NoButton⟩) d

end Decoration

/-- The event types `hoverMoveEvent` synthesizes: HoverEnter and HoverLeave. -/
def isSynthesized (t : QEventType) : Bool :=
  t == .HoverEnter || t == .HoverLeave

/-- The synthesized hover events of a delivery trace that went to the button at
position `i` or to the button at position `j`, in delivery order. -/
def synthesizedFor (i j : Nat) (log : List Delivery) : List Delivery :=
  log.filter (fun x => (x.receiver == i || x.receiver == j) && isSynthesized x.type)

/-- The events the button at position `i` was sent between the state `before`
and the later state `after`: the deliveries appended to the trace whose receiver
is `i`. -/
def receivedBy (i : Nat) (before after : Decoration) : List Delivery :=
  (after.delivered.drop before.delivered.length).filter (fun x => x.receiver == i)

/-- The mirror image of a Section under a left-right reflection:
TopLeft and TopRight, Left and Right, BottomLeft and BottomRight are exchanged;
the other Sections are fixed. -/
def mirrorSection : WindowFrameSection → WindowFrameSection
  | .TopLeftSection => .TopRightSection
  | .TopRightSection => .TopLeftSection
  | .LeftSection => .RightSection
  | .RightSection => .LeftSection
  | .BottomLeftSection => .BottomRightSection
  | .BottomRightSection => .BottomLeftSection
  | s => s

namespace Decoration

/-- The horizontally mirrored geometry: left and right borders swapped and the
title-bar rectangle reflected about the vertical centre line of `rect()` (column
`x` goes to column `width - 1 - x`). -/
def mirrored (d : Decoration) : Decoration :=
  { d with
      borders := ⟨d.borders.right, d.borders.top, d.borders.left, d.borders.bottom⟩,
      titleBar := ⟨d.size.width - 1 - d.titleBar.x2, d.titleBar.y1,
                   d.size.width - 1 - d.titleBar.x1, d.titleBar.y2⟩ }

/-- The mirrored point `(width - 1 - x, y)`. -/
def mirrorPoint (d : Decoration) (p : QPoint) : QPoint :=
  ⟨d.size.width - 1 - p.x, p.y⟩

end Decoration

/-- The number of buttons of a list with `pressed == true`. -/
def pressedCount (bs : List DecorationButton) : Nat :=
  bs.countP (fun b => b.pressed)

namespace Decoration

/-- A sequence of events dispatched one after the other through
`Decoration::event`. -/
def dispatch (d : Decoration) (es : List QEvent) : Decoration :=
  es.foldl (fun s e => s.event e) d

/-- Whether, in the sequence `es` dispatched from state `d`, every press event
arrives while no button is pressed. -/
def pressesWhileReleased : Decoration → List QEvent → Bool
  | _, [] => true
  | d, e :: es =>
    (e.type != .MouseButtonPress || pressedCount d.buttons == 0) &&
      pressesWhileReleased (d.event e) es

end Decoration

/-! ## The button group (`decorationbuttongroup.h`) -/

/-- QPointF: Qt stores `xp, yp`; exact rationals, as for `QRectF`. -/
structure QPointF where
  xp : ℚ
  yp : ℚ
  deriving DecidableEq

/-- DecorationButtonGroup::Position. -/
inductive Position where
  | Left
  | Right
  deriving DecidableEq, Repr

/-- The state of a `DecorationButtonGroup`: its `Position`, the properties
`spacing`, `geometry` and `pos` declared in the header, and the buttons it holds
in insertion order. -/
structure DecorationButtonGroup where
  position : Position
  spacing : ℚ
  pos : QPointF
  geometry : QRectF
  buttons : List DecorationButton
  deriving DecidableEq

/-- Modelled from the spec: the union rectangle of two rectangles of
non-negative size, that is, their bounding box (the layout code,
decorationbuttongroup.cpp, is not among the sources). -/
def QRectF.united (a b : QRectF) : QRectF :=
  let l := min a.xp b.xp
  let r := max (a.xp + a.w) (b.xp + b.w)
  let t := min a.yp b.yp
  let bt := max (a.yp + a.h) (b.yp + b.h)
  ⟨l, t, r - l, bt - t⟩

namespace DecorationButtonGroup

/-- Modelled from the spec: the placement pass of `relayout` for a Left-anchored
group (decorationbuttongroup.cpp is not among the sources).  Members are visited
in insertion order; members with `visible == false` are skipped; a visible member
gets its leading edge at `x` (row `y`), keeping its size, and the next visible
member's leading edge is this member's trailing edge plus `spacing`. -/
def placeFrom (spacing y : ℚ) : ℚ → List DecorationButton → List DecorationButton
  | _, [] => []
  | x, b :: rest =>
    if b.visible then
      { b with geometry := ⟨x, y, b.geometry.w, b.geometry.h⟩ } ::
        placeFrom spacing y (x + b.geometry.w + spacing) rest
    else
      b :: placeFrom spacing y x rest

/-- Modelled from the spec: the placement pass of `relayout` for a
Right-anchored group, over the members in reverse insertion order: the group
grows from `x` toward decreasing x, a visible member getting its trailing edge at
`x` and the next one its trailing edge at this member's leading edge minus
`spacing`. -/
def placeBack (spacing y : ℚ) : ℚ → List DecorationButton → List DecorationButton
  | _, [] => []
  | x, b :: rest =>
    if b.visible then
      { b with geometry := ⟨x - b.geometry.w, y, b.geometry.w, b.geometry.h⟩ } ::
        placeBack spacing y (x - b.geometry.w - spacing) rest
    else
      b :: placeBack spacing y x rest

/-- Modelled from the spec: the union rectangle of the placed visible members'
rectangles, or the zero-size rectangle anchored at `pos` when there is none. -/
def unionOf (pos : QPointF) : List QRectF → QRectF
  | [] => ⟨pos.xp, pos.yp, 0, 0⟩
  | r :: rs => rs.foldl QRectF.united r

/-- Modelled from the spec: the layout algorithm `relayout` of §4.2
(decorationbuttongroup.cpp is not among the sources): the placement pass for
the group's `Position`, then `geometry` becomes the union rectangle of the
visible members.  The geometry-changed notification is not recorded. -/
def relayout (g : DecorationButtonGroup) : DecorationButtonGroup :=
  let placed :=
    match g.position with
    | .Left => placeFrom g.spacing g.pos.yp g.pos.xp g.buttons
    | .Right => (placeBack g.spacing g.pos.yp g.pos.xp g.buttons.reverse).reverse
  { g with
      buttons := placed,
      geometry := unionOf g.pos ((placed.filter (fun b => b.visible)).map (fun b => b.geometry)) }

end DecorationButtonGroup

/-- A visible button of size 20x20. -/
def button20 : DecorationButton := ⟨true, true, false, false, LeftButton, ⟨0, 0, 20, 20⟩⟩

/-- The layout scenario: a Left-anchored group at (0, 0) with spacing 4 holding
three visible buttons of width 20. -/
def groupOfThree : DecorationButtonGroup :=
  ⟨.Left, 4, ⟨0, 0⟩, ⟨0, 0, 0, 0⟩, [button20, button20, button20]⟩

/-- The geometry of the scenario: borders left=4, top=30, right=4, bottom=4,
client 192x166 (decoration 200x200), title bar (4, 4, 192, 26), largeSpacing 4,
no buttons, Section NoSection, empty traces. -/
def scenario : Decoration where
  sectionUnderMouse := .NoSection
  borders := ⟨4, 30, 4, 4⟩
  resizeOnlyBorders := ⟨0, 0, 0, 0⟩
  titleBar := QRect.ofXYWH 4 4 192 26
  opaqueFlag := false
  shadow := 0
  largeSpacing := 4
  client := ⟨192, 166, false, false⟩
  buttons := []
  emitted := []
  bridgeUpdates := []
  delivered := []

/-- A button of the hover scenario: enabled, visible, not hovered, not pressed,
accepting the left button, with geometry (10, 4, 20, 20). -/
def buttonA : DecorationButton := ⟨true, true, false, false, LeftButton, ⟨10, 4, 20, 20⟩⟩

/-- A second button of the hover scenario, with geometry (40, 4, 20, 20), which
does not overlap that of `buttonA`. -/
def buttonB : DecorationButton := ⟨true, true, false, false, LeftButton, ⟨40, 4, 20, 20⟩⟩

/-- The scenario with the button list `[buttonA, buttonB]`. -/
def scenarioAB : Decoration := { scenario with buttons := [buttonA, buttonB] }

/-- The scenario with the button list `[buttonB, buttonA]`. -/
def scenarioBA : Decoration := { scenario with buttons := [buttonB, buttonA] }

/-- The scenario with `buttonA` followed by a pressed copy of `buttonB` (which
is not hovered). -/
def scenarioPressedB : Decoration :=
  { scenario with buttons := [buttonA, { buttonB with pressed := true }] }

/-- The scenario with `buttonA` followed by a hovered copy of `buttonB`. -/
def scenarioHoveredB : Decoration :=
  { scenario with buttons := [buttonA, { buttonB with hovered := true }] }

/-- The event sequence of the pressed-buttons scenario: hover-move into
`buttonA`, left press, hover-move into `buttonB`, left press. -/
def pressTwice : List QEvent :=
  [⟨.HoverMove, ⟨15, 10⟩, NoButton⟩, ⟨.MouseButtonPress, ⟨15, 10⟩, LeftButton⟩,
   ⟨.HoverMove, ⟨45, 10⟩, NoButton⟩, ⟨.MouseButtonPress, ⟨45, 10⟩, LeftButton⟩]

/-- A press, a move, the matching release and a second press, all with the left
button at (45, 10). -/
def pressReleasePress : List QEvent :=
  [⟨.MouseButtonPress, ⟨45, 10⟩, LeftButton⟩, ⟨.MouseMove, ⟨45, 10⟩, NoButton⟩,
   ⟨.MouseButtonRelease, ⟨45, 10⟩, LeftButton⟩, ⟨.MouseButtonPress, ⟨45, 10⟩, LeftButton⟩]

/-- An inconsistent geometry: the scenario with left border -4 and a title bar
(300, 300, 50, 50) outside `rect()`. -/
def scenarioInconsistent : Decoration :=
  { scenario with borders := ⟨-4, 30, 4, 4⟩, titleBar := QRect.ofXYWH 300 300 50 50 }

/-! ## Theorems -/

namespace Decoration

theorem updateSectionUnderMouse_eq (d : Decoration) (p : QPoint) :
    d.updateSectionUnderMouse p = d.setSectionUnderMouse (d.sectionAt p) := by
  unfold updateSectionUnderMouse sectionAt
  simp only []
  split_ifs <;> rfl

theorem setSectionUnderMouse_section (d : Decoration) (s : WindowFrameSection) :
    (d.setSectionUnderMouse s).sectionUnderMouse = s := by
  unfold setSectionUnderMouse
  split_ifs with h
  · exact h
  · rfl

theorem updateSectionUnderMouse_section (d : Decoration) (p : QPoint) :
    (d.updateSectionUnderMouse p).sectionUnderMouse = d.sectionAt p := by
  rw [updateSectionUnderMouse_eq, setSectionUnderMouse_section]

end Decoration

/-- C1: whenever the title-bar rectangle contains the point, the Section after
`updateSectionUnderMouse` is TitleBarArea, for every state of the decoration
(borders, client size, largeSpacing and previous Section are arbitrary). -/
theorem titleBar_point_is_TitleBarArea (d : Decoration) (p : QPoint)
    (h : d.titleBar.contains p = true) :
    (d.updateSectionUnderMouse p).sectionUnderMouse = .TitleBarArea := by
  rw [Decoration.updateSectionUnderMouse_section]
  unfold Decoration.sectionAt
  rw [if_pos h]

/-- Witness of C1: the point (100, 10) lies in the title bar of the scenario. -/
theorem titleBar_point_is_TitleBarArea_witness :
    scenario.titleBar.contains ⟨100, 10⟩ = true ∧
      (scenario.updateSectionUnderMouse ⟨100, 10⟩).sectionUnderMouse = .TitleBarArea :=
  ⟨by decide, titleBar_point_is_TitleBarArea scenario ⟨100, 10⟩ (by decide)⟩

/-- C2: in every state whose geometry is that of the scenario (borders 4/30/4/4,
client 192x166, title bar (4, 4, 192, 26), largeSpacing 4) the decoration size is
200x200, the corner threshold is 8, and `updateSectionUnderMouse` classifies
(2,2) as TopLeft, (198,100) as Right, (100,198) as Bottom and (2,100) as Left. -/
theorem scenario_classification (d : Decoration)
    (hb : d.borders = ⟨4, 30, 4, 4⟩)
    (hw : d.client.width = 192) (hh : d.client.height = 166)
    (ht : d.titleBar = QRect.ofXYWH 4 4 192 26)
    (hl : d.largeSpacing = 4) :
    d.size = ⟨200, 200⟩ ∧ 2 * d.largeSpacing = 8 ∧
      (d.updateSectionUnderMouse ⟨2, 2⟩).sectionUnderMouse = .TopLeftSection ∧
      (d.updateSectionUnderMouse ⟨198, 100⟩).sectionUnderMouse = .RightSection ∧
      (d.updateSectionUnderMouse ⟨100, 198⟩).sectionUnderMouse = .BottomSection ∧
      (d.updateSectionUnderMouse ⟨2, 100⟩).sectionUnderMouse = .LeftSection := by
  simp only [Decoration.updateSectionUnderMouse_section, Decoration.sectionAt,
    Decoration.size, hb, hw, hh, ht, hl]
  decide

/-- Witness of C2: the scenario state itself. -/
theorem scenario_classification_witness :
    scenario.size = ⟨200, 200⟩ ∧ 2 * scenario.largeSpacing = 8 ∧
      (scenario.updateSectionUnderMouse ⟨2, 2⟩).sectionUnderMouse = .TopLeftSection ∧
      (scenario.updateSectionUnderMouse ⟨198, 100⟩).sectionUnderMouse = .RightSection ∧
      (scenario.updateSectionUnderMouse ⟨100, 198⟩).sectionUnderMouse = .BottomSection ∧
      (scenario.updateSectionUnderMouse ⟨2, 100⟩).sectionUnderMouse = .LeftSection :=
  scenario_classification scenario rfl rfl rfl rfl rfl

/-- C3: two calls of `updateSectionUnderMouse` with the same point in a row: the
first call emits nothing or exactly one `sectionUnderMouseChanged` carrying the
new Section (and touches no other trace); the second call returns the state
unchanged, so the Section stays and nothing is emitted. -/
theorem updateSectionUnderMouse_twice (d : Decoration) (p : QPoint) :
    ((d.updateSectionUnderMouse p).emitted = d.emitted ∨
      (d.updateSectionUnderMouse p).emitted =
        d.emitted ++ [.sectionUnderMouseChanged (d.updateSectionUnderMouse p).sectionUnderMouse]) ∧
    ((d.updateSectionUnderMouse p).updateSectionUnderMouse p).sectionUnderMouse =
      (d.updateSectionUnderMouse p).sectionUnderMouse ∧
    ((d.updateSectionUnderMouse p).updateSectionUnderMouse p).emitted =
      (d.updateSectionUnderMouse p).emitted ∧
    (d.updateSectionUnderMouse p).updateSectionUnderMouse p = d.updateSectionUnderMouse p := by
  have key : (d.updateSectionUnderMouse p).updateSectionUnderMouse p =
      d.updateSectionUnderMouse p := by
    have hs : (d.updateSectionUnderMouse p).sectionAt p = d.sectionAt p := by
      rw [Decoration.updateSectionUnderMouse_eq]
      unfold Decoration.setSectionUnderMouse
      split_ifs <;> rfl
    rw [Decoration.updateSectionUnderMouse_eq (d.updateSectionUnderMouse p), hs]
    have hsec := Decoration.updateSectionUnderMouse_section d p
    unfold Decoration.setSectionUnderMouse
    rw [if_pos hsec]
  refine ⟨?_, by rw [key], by rw [key], key⟩
  rw [Decoration.updateSectionUnderMouse_eq]
  unfold Decoration.setSectionUnderMouse
  split_ifs with h
  · exact Or.inl rfl
  · exact Or.inr rfl

/-- Counterexample to C4 as stated: in the scenario the point (2, 20) is outside
the title bar, the left flag (2 < 4) and the top flag (20 < 30) both hold, and
the Section is the plain edge Left, not TopLeft (20 is not below
`titleBar.top() + corner` = 12). -/
theorem corner_resolution_counterexample :
    scenario.titleBar.contains ⟨2, 20⟩ = false ∧
      (2 : Int) < scenario.borders.left ∧ (20 : Int) < scenario.borders.top ∧
      (scenario.updateSectionUnderMouse ⟨2, 20⟩).sectionUnderMouse = .LeftSection ∧
      (scenario.updateSectionUnderMouse ⟨2, 20⟩).sectionUnderMouse ≠ .TopLeftSection := by
  decide

/-- C4 (amended): for a point outside the title bar.  If the left flag holds:
the Section is TopLeft when the top flag holds and `y < titleBar.top() + corner`;
failing that, it is BottomLeft when the bottom flag holds, the corner threshold
is non-negative and `y > titleBar.bottom()`; and it is always one of TopLeft,
BottomLeft, Left (never Top or Bottom).  If the left flag does not hold and the
right flag holds: the same with TopRight, BottomRight, Right. -/
theorem corner_resolution (d : Decoration) (p : QPoint)
    (hout : d.titleBar.contains p = false) :
    (p.x < d.borders.left →
      (p.y < d.borders.top → p.y < d.titleBar.top + 2 * d.largeSpacing →
        (d.updateSectionUnderMouse p).sectionUnderMouse = .TopLeftSection) ∧
      (d.size.height - p.y ≤ d.borders.bottom → 0 ≤ 2 * d.largeSpacing →
        ¬ (p.y < d.borders.top ∧ p.y < d.titleBar.top + 2 * d.largeSpacing) →
        p.y > d.titleBar.bottom →
        (d.updateSectionUnderMouse p).sectionUnderMouse = .BottomLeftSection) ∧
      ((d.updateSectionUnderMouse p).sectionUnderMouse = .TopLeftSection ∨
        (d.updateSectionUnderMouse p).sectionUnderMouse = .BottomLeftSection ∨
        (d.updateSectionUnderMouse p).sectionUnderMouse = .LeftSection)) ∧
    (¬ p.x < d.borders.left → d.size.width - p.x ≤ d.borders.right →
      (p.y < d.borders.top → p.y < d.titleBar.top + 2 * d.largeSpacing →
        (d.updateSectionUnderMouse p).sectionUnderMouse = .TopRightSection) ∧
      (d.size.height - p.y ≤ d.borders.bottom → 0 ≤ 2 * d.largeSpacing →
        ¬ (p.y < d.borders.top ∧ p.y < d.titleBar.top + 2 * d.largeSpacing) →
        p.y > d.titleBar.bottom →
        (d.updateSectionUnderMouse p).sectionUnderMouse = .BottomRightSection) ∧
      ((d.updateSectionUnderMouse p).sectionUnderMouse = .TopRightSection ∨
        (d.updateSectionUnderMouse p).sectionUnderMouse = .BottomRightSection ∨
        (d.updateSectionUnderMouse p).sectionUnderMouse = .RightSection)) := by
  rw [Decoration.updateSectionUnderMouse_section]
  unfold Decoration.sectionAt
  simp only [hout, Bool.false_eq_true, if_false]
  constructor
  · intro hl
    simp only [hl, decide_True, if_true]
    refine ⟨?_, ?_, ?_⟩
    · intro h1 h2
      simp [h1, h2]
    · intro h1 h0 h2 h3
      have h4 : d.size.height - p.y ≤ d.borders.bottom + 2 * d.largeSpacing := by omega
      rw [if_neg (by simpa using h2)]
      simp [h4, h3]
    · split_ifs <;> simp
  · intro hl hr
    simp only [hl, hr, decide_False, decide_True, if_true, Bool.false_eq_true, if_false]
    refine ⟨?_, ?_, ?_⟩
    · intro h1 h2
      simp [h1, h2]
    · intro h1 h0 h2 h3
      have h4 : d.size.height - p.y ≤ d.borders.bottom + 2 * d.largeSpacing := by omega
      rw [if_neg (by simpa using h2)]
      simp [h4, h3]
    · split_ifs <;> simp

/-- Witness of C4 (amended): the four corners of the scenario, (2,2), (2,198),
(198,2) and (198,198). -/
theorem corner_resolution_witness :
    (scenario.updateSectionUnderMouse ⟨2, 2⟩).sectionUnderMouse = .TopLeftSection ∧
      (scenario.updateSectionUnderMouse ⟨2, 198⟩).sectionUnderMouse = .BottomLeftSection ∧
      (scenario.updateSectionUnderMouse ⟨198, 2⟩).sectionUnderMouse = .TopRightSection ∧
      (scenario.updateSectionUnderMouse ⟨198, 198⟩).sectionUnderMouse = .BottomRightSection :=
  ⟨((corner_resolution scenario ⟨2, 2⟩ (by decide)).1 (by decide)).1 (by decide) (by decide),
    ((corner_resolution scenario ⟨2, 198⟩ (by decide)).1 (by decide)).2.1
      (by decide) (by decide) (by decide) (by decide),
    ((corner_resolution scenario ⟨198, 2⟩ (by decide)).2 (by decide) (by decide)).1
      (by decide) (by decide),
    ((corner_resolution scenario ⟨198, 198⟩ (by decide)).2 (by decide) (by decide)).2.1
      (by decide) (by decide) (by decide) (by decide)⟩

/-- C5: `size()` is (client width + left + right border, client height + top +
bottom border); `rect()` has origin (0, 0) and the width and height of `size()`;
both are recomputed on every read: after `setBorders b` they use `b`, after the
client's `setWidth w` / `setHeight h` they use `w` / `h`. -/
theorem size_rect_derived (d : Decoration) :
    d.size = ⟨d.client.width + d.borders.left + d.borders.right,
              d.client.height + d.borders.top + d.borders.bottom⟩ ∧
    (d.rect.x = 0 ∧ d.rect.y = 0 ∧
      d.rect.width = d.client.width + d.borders.left + d.borders.right ∧
      d.rect.height = d.client.height + d.borders.top + d.borders.bottom) ∧
    (∀ b : QMargins,
      (d.setBorders b).size = ⟨d.client.width + b.left + b.right,
                               d.client.height + b.top + b.bottom⟩ ∧
      (d.setBorders b).rect = QRect.ofPointSize ⟨0, 0⟩
        ⟨d.client.width + b.left + b.right, d.client.height + b.top + b.bottom⟩) ∧
    (∀ w : Int,
      ({ d with client := d.client.setWidth w } : Decoration).size =
        ⟨w + d.borders.left + d.borders.right,
         d.client.height + d.borders.top + d.borders.bottom⟩) ∧
    (∀ h : Int,
      ({ d with client := d.client.setHeight h } : Decoration).size =
        ⟨d.client.width + d.borders.left + d.borders.right,
         h + d.borders.top + d.borders.bottom⟩) := by
  refine ⟨rfl, ⟨rfl, rfl, ?_, ?_⟩, ?_, fun _ => rfl, fun _ => rfl⟩
  · simp only [Decoration.rect, Decoration.size, QRect.ofPointSize, QRect.width]
    ring
  · simp only [Decoration.rect, Decoration.size, QRect.ofPointSize, QRect.height]
    ring
  · intro b
    have hs : (d.setBorders b).size = ⟨d.client.width + b.left + b.right,
        d.client.height + b.top + b.bottom⟩ := by
      unfold Decoration.setBorders
      split_ifs with h
      · rw [← h]; rfl
      · rfl
    exact ⟨hs, by rw [Decoration.rect, hs]⟩

/-- C6: each of `setBorders`, `setResizeOnlyBorders`, `setTitleBar`, `setOpaque`,
`setShadow` returns the state unchanged (nothing emitted) when the new value
equals the stored one; otherwise exactly that member takes the new value, every
other member keeps its value and exactly one signal, the member's own
changed-signal, is appended to the emitted trace.  (For `setBorders` the slot
connected to `bordersChanged` also records one Bridge call; no member changes.) -/
theorem mutators_frame (d : Decoration) :
    (∀ a : QMargins,
      (d.borders = a → d.setBorders a = d) ∧
      (d.borders ≠ a → d.setBorders a =
        { d with borders := a, emitted := d.emitted ++ [.bordersChanged],
                 bridgeUpdates := d.bridgeUpdates ++
                   [({ d with borders := a } : Decoration).rect] })) ∧
    (∀ a : QMargins,
      (d.resizeOnlyBorders = a → d.setResizeOnlyBorders a = d) ∧
      (d.resizeOnlyBorders ≠ a → d.setResizeOnlyBorders a =
        { d with resizeOnlyBorders := a,
                 emitted := d.emitted ++ [.resizeOnlyBordersChanged] })) ∧
    (∀ a : QRect,
      (d.titleBar = a → d.setTitleBar a = d) ∧
      (d.titleBar ≠ a → d.setTitleBar a =
        { d with titleBar := a, emitted := d.emitted ++ [.titleBarChanged] })) ∧
    (∀ a : Bool,
      (d.opaqueFlag = a → d.setOpaque a = d) ∧
      (d.opaqueFlag ≠ a → d.setOpaque a =
        { d with opaqueFlag := a, emitted := d.emitted ++ [.opaqueChanged a] })) ∧
    (∀ a : Nat,
      (d.shadow = a → d.setShadow a = d) ∧
      (d.shadow ≠ a → d.setShadow a =
        { d with shadow := a, emitted := d.emitted ++ [.shadowChanged a] })) := by
  refine ⟨fun a => ⟨fun h => ?_, fun h => ?_⟩, fun a => ⟨fun h => ?_, fun h => ?_⟩,
    fun a => ⟨fun h => ?_, fun h => ?_⟩, fun a => ⟨fun h => ?_, fun h => ?_⟩,
    fun a => ⟨fun h => ?_, fun h => ?_⟩⟩
  · unfold Decoration.setBorders; rw [if_pos h]
  · unfold Decoration.setBorders; rw [if_neg h]; rfl
  · unfold Decoration.setResizeOnlyBorders; rw [if_pos h]
  · unfold Decoration.setResizeOnlyBorders; rw [if_neg h]; rfl
  · unfold Decoration.setTitleBar; rw [if_pos h]
  · unfold Decoration.setTitleBar; rw [if_neg h]; rfl
  · unfold Decoration.setOpaque; rw [if_pos h]
  · unfold Decoration.setOpaque; rw [if_neg h]; rfl
  · unfold Decoration.setShadow; rw [if_pos h]
  · unfold Decoration.setShadow; rw [if_neg h]; rfl

/-- Witness of C6: on the scenario, a changing and a non-changing call of each
of the five mutators. -/
theorem mutators_frame_witness :
    (scenario.setBorders ⟨4, 30, 4, 4⟩ = scenario ∧
      (scenario.setBorders ⟨1, 2, 3, 4⟩).borders = ⟨1, 2, 3, 4⟩ ∧
      (scenario.setBorders ⟨1, 2, 3, 4⟩).emitted = [.bordersChanged]) ∧
    (scenario.setResizeOnlyBorders ⟨0, 0, 0, 0⟩ = scenario ∧
      (scenario.setResizeOnlyBorders ⟨5, 5, 5, 5⟩).emitted = [.resizeOnlyBordersChanged]) ∧
    (scenario.setTitleBar (QRect.ofXYWH 4 4 192 26) = scenario ∧
      (scenario.setTitleBar (QRect.ofXYWH 0 0 200 30)).emitted = [.titleBarChanged]) ∧
    (scenario.setOpaque false = scenario ∧
      (scenario.setOpaque true).emitted = [.opaqueChanged true]) ∧
    (scenario.setShadow 0 = scenario ∧
      (scenario.setShadow 7).emitted = [.shadowChanged 7]) :=
  ⟨⟨((mutators_frame scenario).1 ⟨4, 30, 4, 4⟩).1 rfl,
      by rw [((mutators_frame scenario).1 ⟨1, 2, 3, 4⟩).2 (by decide)],
      by rw [((mutators_frame scenario).1 ⟨1, 2, 3, 4⟩).2 (by decide)]; rfl⟩,
    ⟨((mutators_frame scenario).2.1 ⟨0, 0, 0, 0⟩).1 rfl,
      by rw [((mutators_frame scenario).2.1 ⟨5, 5, 5, 5⟩).2 (by decide)]; rfl⟩,
    ⟨((mutators_frame scenario).2.2.1 (QRect.ofXYWH 4 4 192 26)).1 rfl,
      by rw [((mutators_frame scenario).2.2.1 (QRect.ofXYWH 0 0 200 30)).2 (by decide)]; rfl⟩,
    ⟨((mutators_frame scenario).2.2.2.1 false).1 rfl,
      by rw [((mutators_frame scenario).2.2.2.1 true).2 (by decide)]; rfl⟩,
    ⟨((mutators_frame scenario).2.2.2.2 0).1 rfl,
      by rw [((mutators_frame scenario).2.2.2.2 7).2 (by decide)]; rfl⟩⟩

/-- Counterexample to C7 as stated: on the scenario, `setResizeOnlyBorders` and
`setTitleBar` with a new value both change the stored value and leave the trace
of Bridge calls empty. -/
theorem repaint_counterexample :
    (scenario.setResizeOnlyBorders ⟨5, 5, 5, 5⟩).resizeOnlyBorders ≠
        scenario.resizeOnlyBorders ∧
      (scenario.setResizeOnlyBorders ⟨5, 5, 5, 5⟩).bridgeUpdates = [] ∧
      (scenario.setTitleBar (QRect.ofXYWH 0 0 200 30)).titleBar ≠ scenario.titleBar ∧
      (scenario.setTitleBar (QRect.ofXYWH 0 0 200 30)).bridgeUpdates = [] := by
  decide

/-- C7 (amended): a call of `setBorders` that changes the stored value issues
exactly one repaint request to the Bridge, for the whole `rect()` computed with
the new borders; `setResizeOnlyBorders` and `setTitleBar` issue no repaint
request, whether or not they change the stored value. -/
theorem repaint_on_border_change (d : Decoration) :
    (∀ a : QMargins, d.borders ≠ a →
      (d.setBorders a).bridgeUpdates = d.bridgeUpdates ++ [(d.setBorders a).rect]) ∧
    (∀ a : QMargins, (d.setResizeOnlyBorders a).bridgeUpdates = d.bridgeUpdates) ∧
    (∀ a : QRect, (d.setTitleBar a).bridgeUpdates = d.bridgeUpdates) := by
  refine ⟨fun a h => ?_, fun a => ?_, fun a => ?_⟩
  · unfold Decoration.setBorders; rw [if_neg h]; rfl
  · unfold Decoration.setResizeOnlyBorders; split_ifs <;> rfl
  · unfold Decoration.setTitleBar; split_ifs <;> rfl

/-- Witness of C7 (amended): changing the borders of the scenario to 1/2/3/4
requests a repaint of (0, 0, 196, 172). -/
theorem repaint_on_border_change_witness :
    scenario.borders ≠ ⟨1, 2, 3, 4⟩ ∧
      (scenario.setBorders ⟨1, 2, 3, 4⟩).bridgeUpdates = [QRect.ofXYWH 0 0 196 172] :=
  ⟨by decide,
    by rw [(repaint_on_border_change scenario).1 ⟨1, 2, 3, 4⟩ (by decide)]; decide⟩

/-- Counterexample to C8 as stated: a window maximized horizontally but not
vertically is not maximized, yet `requestToggleMaximization(Qt::LeftButton)`
leaves it with the horizontal flag false (only the vertical one true) and emits
two signals, not three. -/
theorem toggle_primary_counterexample :
    (MockClient.mk 192 166 true false).isMaximized = false ∧
      ({ scenario with client := ⟨192, 166, true, false⟩ } : Decoration).requestToggleMaximization
          LeftButton =
        { scenario with
            client := ⟨192, 166, false, true⟩,
            emitted := [.maximizedHorizontallyChanged false,
                        .maximizedVerticallyChanged true] } := by
  decide

/-- C8 (amended): for every window with neither maximized flag set,
`requestToggleMaximization(Qt::LeftButton)` sets both flags to true (changing
nothing else) and emits exactly `maximizedHorizontallyChanged(true)`,
`maximizedVerticallyChanged(true)`, `maximizedChanged(true)`, in that order. -/
theorem toggle_primary_from_restored (d : Decoration)
    (hh : d.client.isMaximizedHorizontally = false)
    (hv : d.client.isMaximizedVertically = false) :
    d.requestToggleMaximization LeftButton =
      { d with
          client := { d.client with m_maximizedHorizontally := true,
                                    m_maximizedVertically := true },
          emitted := d.emitted ++ [.maximizedHorizontallyChanged true,
                                   .maximizedVerticallyChanged true,
                                   .maximizedChanged true] } := by
  obtain ⟨s, b, r, t, o, sh, l, ⟨w, h, mh, mv⟩, bs, e, u, dl⟩ := d
  simp only [MockClient.isMaximizedHorizontally, MockClient.isMaximizedVertically] at hh hv
  subst hh hv
  rfl

/-- Witness of C8 (amended): the scenario's window is restored. -/
theorem toggle_primary_from_restored_witness :
    (scenario.requestToggleMaximization LeftButton).client = ⟨192, 166, true, true⟩ ∧
      (scenario.requestToggleMaximization LeftButton).emitted =
        [.maximizedHorizontallyChanged true, .maximizedVerticallyChanged true,
         .maximizedChanged true] :=
  ⟨by rw [toggle_primary_from_restored scenario rfl rfl]; rfl,
    by rw [toggle_primary_from_restored scenario rfl rfl]; rfl⟩

/-- Counterexample to C9 as stated: on a restored window
`requestToggleMaximization(Qt::RightButton)` flips the vertical flag and leaves
the horizontal flag unchanged, and `requestToggleMaximization(Qt::MiddleButton)`
flips the horizontal flag and leaves the vertical flag unchanged. -/
theorem toggle_single_button_counterexample :
    (scenario.requestToggleMaximization RightButton).client = ⟨192, 166, false, true⟩ ∧
      (scenario.requestToggleMaximization MiddleButton).client = ⟨192, 166, true, false⟩ := by
  decide

/-- C9 (amended): for every maximization state, `requestToggleMaximization` with
Qt::LeftButton flips both flags; with Qt::RightButton it flips only the vertical
flag; with Qt::MiddleButton it flips only the horizontal flag.  The client's
width and height are untouched. -/
theorem toggle_single_button (d : Decoration) :
    (d.requestToggleMaximization LeftButton).client =
        { d.client with m_maximizedHorizontally := !d.client.m_maximizedHorizontally,
                        m_maximizedVertically := !d.client.m_maximizedVertically } ∧
    (d.requestToggleMaximization RightButton).client =
        { d.client with m_maximizedVertically := !d.client.m_maximizedVertically } ∧
    (d.requestToggleMaximization MiddleButton).client =
        { d.client with m_maximizedHorizontally := !d.client.m_maximizedHorizontally } := by
  obtain ⟨s, b, r, t, o, sh, l, ⟨w, h, mh, mv⟩, bs, e, u, dl⟩ := d
  cases mh <;> cases mv <;> exact ⟨rfl, rfl, rfl⟩

/-! ### Hover routing -/

namespace Decoration

theorem hoverMoveBody_receiver (e : QEvent) (i : Nat) (b : DecorationButton) :
    ∀ x ∈ (hoverMoveBody e i b).2, x.receiver = i := by
  unfold hoverMoveBody sendEvent
  dsimp only
  split_ifs <;> simp

theorem hoverMoveLoop_receiver_ge (e : QEvent) :
    ∀ (bs : List DecorationButton) (k : Nat),
      ∀ x ∈ (hoverMoveLoop e k bs).2, k ≤ x.receiver := by
  intro bs
  induction bs with
  | nil => intro k x hx; simp [hoverMoveLoop] at hx
  | cons b rest ih =>
    intro k x hx
    simp only [hoverMoveLoop, List.mem_append] at hx
    rcases hx with hx | hx
    · exact (hoverMoveBody_receiver e k b x hx).ge
    · exact Nat.le_of_succ_le (ih (k + 1) x hx)

theorem hoverMoveLoop_button_at (e : QEvent) :
    ∀ (bs : List DecorationButton) (k i : Nat) (a : DecorationButton), bs[i]? = some a →
      (hoverMoveLoop e k bs).1[i]? = some (hoverMoveBody e (k + i) a).1 := by
  intro bs
  induction bs with
  | nil => intro k i a h; simp at h
  | cons b rest ih =>
    intro k i a h
    cases i with
    | zero =>
      simp only [List.getElem?_cons_zero, Option.some.injEq] at h
      subst h
      simp [hoverMoveLoop]
    | succ i =>
      simp only [List.getElem?_cons_succ] at h
      have := ih (k + 1) i a h
      simp only [hoverMoveLoop, List.getElem?_cons_succ, this]
      congr 3
      omega

theorem hoverMoveLoop_filter_one (e : QEvent) :
    ∀ (bs : List DecorationButton) (k i r : Nat) (a : DecorationButton),
      r = k + i → bs[i]? = some a →
      (hoverMoveLoop e k bs).2.filter (fun x => x.receiver == r && isSynthesized x.type) =
        (hoverMoveBody e r a).2.filter (fun x => isSynthesized x.type) := by
  intro bs
  induction bs with
  | nil => intro k i r a _ h; simp at h
  | cons b rest ih =>
    intro k i r a hr h
    simp only [hoverMoveLoop, List.filter_append]
    cases i with
    | zero =>
      simp only [List.getElem?_cons_zero, Option.some.injEq] at h
      subst h
      have hr0 : r = k := by omega
      subst hr0
      have h1 : (hoverMoveLoop e (r + 1) rest).2.filter
          (fun x => x.receiver == r && isSynthesized x.type) = [] := by
        rw [List.filter_eq_nil_iff]
        intro x hx
        have := hoverMoveLoop_receiver_ge e rest (r + 1) x hx
        have hne : x.receiver ≠ r := by omega
        simp [hne]
      rw [h1, List.append_nil]
      apply List.filter_congr
      intro x hx
      simp [hoverMoveBody_receiver e r b x hx]
    | succ i =>
      simp only [List.getElem?_cons_succ] at h
      have h1 : (hoverMoveBody e k b).2.filter
          (fun x => x.receiver == r && isSynthesized x.type) = [] := by
        rw [List.filter_eq_nil_iff]
        intro x hx
        have := hoverMoveBody_receiver e k b x hx
        have hne : x.receiver ≠ r := by omega
        simp [hne]
      rw [h1, List.nil_append]
      exact ih (k + 1) i r a (by omega) h

theorem hoverMoveLoop_filter_two (e : QEvent) :
    ∀ (bs : List DecorationButton) (k i j r1 r2 : Nat) (a b : DecorationButton),
      r1 = k + i → r2 = k + j → i < j → bs[i]? = some a → bs[j]? = some b →
      synthesizedFor r1 r2 (hoverMoveLoop e k bs).2 =
        (hoverMoveBody e r1 a).2.filter (fun x => isSynthesized x.type) ++
          (hoverMoveBody e r2 b).2.filter (fun x => isSynthesized x.type) := by
  intro bs
  induction bs with
  | nil => intro k i j r1 r2 a b _ _ _ h; simp at h
  | cons c rest ih =>
    intro k i j r1 r2 a b hr1 hr2 hij ha hb
    unfold synthesizedFor
    simp only [hoverMoveLoop, List.filter_append]
    obtain ⟨j, rfl⟩ : ∃ j0, j = j0 + 1 := ⟨j - 1, by omega⟩
    simp only [List.getElem?_cons_succ] at hb
    cases i with
    | zero =>
      simp only [List.getElem?_cons_zero, Option.some.injEq] at ha
      subst ha
      have hr0 : r1 = k := by omega
      subst hr0
      have h1 : (hoverMoveBody e r1 c).2.filter
          (fun x => (x.receiver == r1 || x.receiver == r2) && isSynthesized x.type) =
          (hoverMoveBody e r1 c).2.filter (fun x => isSynthesized x.type) := by
        apply List.filter_congr
        intro x hx
        simp [hoverMoveBody_receiver e r1 c x hx]
      have h2 : (hoverMoveLoop e (r1 + 1) rest).2.filter
          (fun x => (x.receiver == r1 || x.receiver == r2) && isSynthesized x.type) =
          (hoverMoveLoop e (r1 + 1) rest).2.filter
            (fun x => x.receiver == r2 && isSynthesized x.type) := by
        apply List.filter_congr
        intro x hx
        have := hoverMoveLoop_receiver_ge e rest (r1 + 1) x hx
        have hne : (x.receiver == r1) = false := beq_false_of_ne (by omega)
        rw [hne, Bool.false_or]
      rw [h1, h2, hoverMoveLoop_filter_one e rest (r1 + 1) j r2 b (by omega) hb]
    | succ i =>
      simp only [List.getElem?_cons_succ] at ha
      have h1 : (hoverMoveBody e k c).2.filter
          (fun x => (x.receiver == r1 || x.receiver == r2) && isSynthesized x.type) = [] := by
        rw [List.filter_eq_nil_iff]
        intro x hx
        have := hoverMoveBody_receiver e k c x hx
        have hne1 : x.receiver ≠ r1 := by omega
        have hne2 : x.receiver ≠ r2 := by omega
        simp [hne1, hne2]
      rw [h1, List.nil_append]
      exact ih (k + 1) i j r1 r2 a b (by omega) (by omega) (by omega) ha hb

theorem hoverMoveBody_enter (e : QEvent) (i : Nat) (b : DecorationButton)
    (he : b.enabled = true) (hv : b.visible = true) (hh : b.hovered = false)
    (hc : b.geometry.contains e.pos = true) :
    hoverMoveBody e i b = ({ b with hovered := true }, [⟨i, .HoverEnter⟩]) := by
  unfold hoverMoveBody sendEvent DecorationButton.event
  simp [he, hv, hh, hc]

theorem hoverMoveBody_leave (e : QEvent) (i : Nat) (b : DecorationButton)
    (he : b.enabled = true) (hv : b.visible = true) (hh : b.hovered = true)
    (hc : b.geometry.contains e.pos = false) :
    hoverMoveBody e i b = ({ b with hovered := false }, [⟨i, .HoverLeave⟩]) := by
  unfold hoverMoveBody sendEvent DecorationButton.event
  simp [he, hv, hh, hc]

theorem hoverMoveBody_move (e : QEvent) (i : Nat) (b : DecorationButton)
    (he : b.enabled = true) (hv : b.visible = true) (hh : b.hovered = true)
    (hc : b.geometry.contains e.pos = true) (ht : e.type = .HoverMove) :
    hoverMoveBody e i b = (b, [⟨i, .HoverMove⟩]) := by
  unfold hoverMoveBody sendEvent DecorationButton.event
  simp [he, hv, hh, hc, ht]

theorem hoverMoveBody_none (e : QEvent) (i : Nat) (b : DecorationButton)
    (he : b.enabled = true) (hv : b.visible = true) (hh : b.hovered = false)
    (hc : b.geometry.contains e.pos = false) :
    hoverMoveBody e i b = (b, []) := by
  unfold hoverMoveBody sendEvent
  simp [he, hv, hh, hc]

theorem setSectionUnderMouse_buttons (d : Decoration) (s : WindowFrameSection) :
    (d.setSectionUnderMouse s).buttons = d.buttons ∧
      (d.setSectionUnderMouse s).delivered = d.delivered := by
  unfold setSectionUnderMouse
  split_ifs
  · exact ⟨rfl, rfl⟩
  · exact ⟨rfl, rfl⟩

theorem hoverMoveEvent_buttons (d : Decoration) (e : QEvent) :
    (d.hoverMoveEvent e).buttons = (hoverMoveLoop e 0 d.buttons).1 := by
  unfold hoverMoveEvent
  simp only [updateSectionUnderMouse_eq]
  rw [(setSectionUnderMouse_buttons _ _).1]

theorem hoverMoveEvent_delivered (d : Decoration) (e : QEvent) :
    (d.hoverMoveEvent e).delivered = d.delivered ++ (hoverMoveLoop e 0 d.buttons).2 := by
  unfold hoverMoveEvent
  simp only [updateSectionUnderMouse_eq]
  rw [(setSectionUnderMouse_buttons _ _).2]

end Decoration

theorem synthesizedFor_append (i j : Nat) (l1 l2 : List Delivery) :
    synthesizedFor i j (l1 ++ l2) = synthesizedFor i j l1 ++ synthesizedFor i j l2 := by
  unfold synthesizedFor
  rw [List.filter_append]

theorem synthesizedFor_comm (i j : Nat) (l : List Delivery) :
    synthesizedFor i j l = synthesizedFor j i l := by
  unfold synthesizedFor
  apply List.filter_congr
  intro x _
  rw [Bool.or_comm]

namespace Decoration

theorem hoverMoveEvent_pair (d : Decoration) (e : QEvent) (i j : Nat)
    (a b : DecorationButton) (hij : i ≠ j)
    (ha : d.buttons[i]? = some a) (hb : d.buttons[j]? = some b) :
    (d.hoverMoveEvent e).buttons[i]? = some (hoverMoveBody e i a).1 ∧
    (d.hoverMoveEvent e).buttons[j]? = some (hoverMoveBody e j b).1 ∧
    synthesizedFor i j (d.hoverMoveEvent e).delivered =
      synthesizedFor i j d.delivered ++
        (if i < j then
          (hoverMoveBody e i a).2.filter (fun x => isSynthesized x.type) ++
            (hoverMoveBody e j b).2.filter (fun x => isSynthesized x.type)
        else
          (hoverMoveBody e j b).2.filter (fun x => isSynthesized x.type) ++
            (hoverMoveBody e i a).2.filter (fun x => isSynthesized x.type)) := by
  refine ⟨?_, ?_, ?_⟩
  · rw [hoverMoveEvent_buttons]
    have := hoverMoveLoop_button_at e d.buttons 0 i a ha
    rwa [Nat.zero_add] at this
  · rw [hoverMoveEvent_buttons]
    have := hoverMoveLoop_button_at e d.buttons 0 j b hb
    rwa [Nat.zero_add] at this
  · rw [hoverMoveEvent_delivered, synthesizedFor_append]
    congr 1
    by_cases h : i < j
    · rw [if_pos h]
      exact hoverMoveLoop_filter_two e d.buttons 0 i j i j a b (by omega) (by omega) h ha hb
    · rw [if_neg h, synthesizedFor_comm]
      exact hoverMoveLoop_filter_two e d.buttons 0 j i j i b a (by omega) (by omega)
        (by omega) hb ha

theorem hoverMoves_cons (d : Decoration) (p : QPoint) (ps : List QPoint) :
    d.hoverMoves (p :: ps) = (d.hoverMoveEvent ⟨.HoverMove, p, NoButton⟩).hoverMoves ps := rfl

theorem hoverMoves_append (d : Decoration) (ps qs : List QPoint) :
    d.hoverMoves (ps ++ qs) = (d.hoverMoves ps).hoverMoves qs := by
  unfold hoverMoves
  rw [List.foldl_append]

/-- While the pointer stays inside a hovered button `x` and outside an
un-hovered button `y`, no event is synthesized for either. -/
theorem hoverMoves_steady :
    ∀ (ps : List QPoint) (d : Decoration) (i j : Nat) (x y : DecorationButton), i ≠ j →
      d.buttons[i]? = some x → d.buttons[j]? = some y →
      x.enabled = true → x.visible = true → x.hovered = true →
      y.enabled = true → y.visible = true → y.hovered = false →
      (∀ p ∈ ps, x.geometry.contains p = true ∧ y.geometry.contains p = false) →
      (d.hoverMoves ps).buttons[i]? = some x ∧ (d.hoverMoves ps).buttons[j]? = some y ∧
        synthesizedFor i j (d.hoverMoves ps).delivered = synthesizedFor i j d.delivered := by
  intro ps
  induction ps with
  | nil => intro d i j x y _ hx hy _ _ _ _ _ _ _; exact ⟨hx, hy, rfl⟩
  | cons p ps ih =>
    intro d i j x y hij hx hy xe xv xh ye yv yh hps
    have hp := hps p (List.mem_cons_self p ps)
    obtain ⟨h1, h2, h3⟩ := hoverMoveEvent_pair d ⟨.HoverMove, p, NoButton⟩ i j x y hij hx hy
    rw [hoverMoveBody_move ⟨.HoverMove, p, NoButton⟩ i x xe xv xh hp.1 rfl] at h1 h3
    rw [hoverMoveBody_none ⟨.HoverMove, p, NoButton⟩ j y ye yv yh hp.2] at h2 h3
    have h4 : synthesizedFor i j (d.hoverMoveEvent ⟨.HoverMove, p, NoButton⟩).delivered =
        synthesizedFor i j d.delivered := by
      rw [h3]
      simp [isSynthesized]
    obtain ⟨g1, g2, g3⟩ := ih (d.hoverMoveEvent ⟨.HoverMove, p, NoButton⟩) i j x y hij h1 h2
      xe xv xh ye yv yh (fun q hq => hps q (List.mem_cons_of_mem p hq))
    rw [hoverMoves_cons]
    exact ⟨g1, g2, by rw [g3, h4]⟩

/-- The pointer enters the un-hovered button `A` (points `p1 :: r1`, all inside
`A` and outside `B`) and then crosses into the un-hovered button `B` (points
`p2 :: r2`, all inside `B` and outside `A`): the synthesized events for the two
buttons, in delivery order.  The order of the last two follows the order of the
buttons in the list. -/
theorem hoverMoves_enter_then_cross (d : Decoration) (iA iB : Nat) (A B : DecorationButton)
    (p1 : QPoint) (r1 : List QPoint) (p2 : QPoint) (r2 : List QPoint) (hne : iA ≠ iB)
    (hA : d.buttons[iA]? = some A) (hB : d.buttons[iB]? = some B)
    (Ae : A.enabled = true) (Av : A.visible = true) (Ah : A.hovered = false)
    (Be : B.enabled = true) (Bv : B.visible = true) (Bh : B.hovered = false)
    (h1 : ∀ p ∈ p1 :: r1, A.geometry.contains p = true ∧ B.geometry.contains p = false)
    (h2 : ∀ p ∈ p2 :: r2, B.geometry.contains p = true ∧ A.geometry.contains p = false) :
    synthesizedFor iA iB (d.hoverMoves ((p1 :: r1) ++ (p2 :: r2))).delivered =
      synthesizedFor iA iB d.delivered ++
        (if iA < iB then [⟨iA, .HoverEnter⟩, ⟨iA, .HoverLeave⟩, ⟨iB, .HoverEnter⟩]
         else [⟨iA, .HoverEnter⟩, ⟨iB, .HoverEnter⟩, ⟨iA, .HoverLeave⟩]) := by
  -- first point: A is entered
  have hp1 := h1 p1 (List.mem_cons_self p1 r1)
  obtain ⟨a1, a2, a3⟩ := hoverMoveEvent_pair d ⟨.HoverMove, p1, NoButton⟩ iA iB A B hne hA hB
  rw [hoverMoveBody_enter ⟨.HoverMove, p1, NoButton⟩ iA A Ae Av Ah hp1.1] at a1 a3
  rw [hoverMoveBody_none ⟨.HoverMove, p1, NoButton⟩ iB B Be Bv Bh hp1.2] at a2 a3
  have a4 : synthesizedFor iA iB (d.hoverMoveEvent ⟨.HoverMove, p1, NoButton⟩).delivered =
      synthesizedFor iA iB d.delivered ++ [⟨iA, .HoverEnter⟩] := by
    rw [a3]
    simp [isSynthesized]
  -- rest of the points inside A
  obtain ⟨b1, b2, b3⟩ := hoverMoves_steady r1 (d.hoverMoveEvent ⟨.HoverMove, p1, NoButton⟩)
    iA iB { A with hovered := true } B hne a1 a2 Ae Av rfl Be Bv Bh
    (fun q hq => h1 q (List.mem_cons_of_mem p1 hq))
  rw [← hoverMoves_cons] at b1 b2 b3
  -- first point inside B: A is left, B is entered
  have hp2 := h2 p2 (List.mem_cons_self p2 r2)
  obtain ⟨c1, c2, c3⟩ := hoverMoveEvent_pair (d.hoverMoves (p1 :: r1))
    ⟨.HoverMove, p2, NoButton⟩ iA iB { A with hovered := true } B hne b1 b2
  rw [hoverMoveBody_leave ⟨.HoverMove, p2, NoButton⟩ iA { A with hovered := true } Ae Av rfl
    hp2.2] at c1 c3
  rw [hoverMoveBody_enter ⟨.HoverMove, p2, NoButton⟩ iB B Be Bv Bh hp2.1] at c2 c3
  -- rest of the points inside B
  obtain ⟨_, _, e3⟩ := hoverMoves_steady r2
    ((d.hoverMoves (p1 :: r1)).hoverMoveEvent ⟨.HoverMove, p2, NoButton⟩)
    iB iA { B with hovered := true } { A with hovered := false } hne.symm c2 c1 Be Bv rfl Ae Av rfl
    (fun q hq => h2 q (List.mem_cons_of_mem p2 hq))
  rw [← hoverMoves_cons, ← hoverMoves_append] at e3
  rw [synthesizedFor_comm iA iB, e3, synthesizedFor_comm iB iA, c3, b3, a4, List.append_assoc]
  congr 1
  by_cases h : iA < iB
  · simp [h, isSynthesized]
  · simp [h, isSynthesized]

end Decoration

theorem buttonA_buttonB_disjoint (p : QPoint) :
    ¬ (buttonA.geometry.contains p = true ∧ buttonB.geometry.contains p = true) := by
  rintro ⟨hA, hB⟩
  simp only [QRectF.contains, buttonA, buttonB] at hA hB
  norm_num at hA hB
  linarith [hA.1.2, hB.1.1]

theorem point_in_buttonA :
    buttonA.geometry.contains ⟨15, 10⟩ = true ∧ buttonB.geometry.contains ⟨15, 10⟩ = false := by
  constructor <;> norm_num [QRectF.contains, buttonA, buttonB]

theorem point_in_buttonB :
    buttonB.geometry.contains ⟨45, 10⟩ = true ∧ buttonA.geometry.contains ⟨45, 10⟩ = false := by
  constructor <;> norm_num [QRectF.contains, buttonA, buttonB]

/-- Counterexample to C10 as stated: with `buttonB` before `buttonA` in the
button list (both enabled, visible, not hovered, non-overlapping), a hover-move
at (15, 10) inside `buttonA` followed by one at (45, 10) inside `buttonB`
delivers HoverEnter to A (position 1), then HoverEnter to B (position 0), and
only then HoverLeave to A: not the order Enter(A), Leave(A), Enter(B). -/
theorem hover_order_counterexample :
    scenarioBA.buttons = [buttonB, buttonA] ∧
      (buttonA.enabled = true ∧ buttonA.visible = true ∧ buttonA.hovered = false) ∧
      (buttonB.enabled = true ∧ buttonB.visible = true ∧ buttonB.hovered = false) ∧
      (∀ p, ¬ (buttonA.geometry.contains p = true ∧ buttonB.geometry.contains p = true)) ∧
      buttonA.geometry.contains ⟨15, 10⟩ = true ∧ buttonB.geometry.contains ⟨45, 10⟩ = true ∧
      (scenarioBA.hoverMoves [⟨15, 10⟩, ⟨45, 10⟩]).delivered =
        [⟨1, .HoverEnter⟩, ⟨0, .HoverEnter⟩, ⟨1, .HoverLeave⟩] := by
  refine ⟨rfl, ⟨rfl, rfl, rfl⟩, ⟨rfl, rfl, rfl⟩, buttonA_buttonB_disjoint,
    point_in_buttonA.1, point_in_buttonB.1, ?_⟩
  have e1 : Decoration.hoverMoveLoop ⟨.HoverMove, ⟨15, 10⟩, NoButton⟩ 0 [buttonB, buttonA] =
      ([buttonB, { buttonA with hovered := true }], [⟨1, .HoverEnter⟩]) := by
    simp only [Decoration.hoverMoveLoop]
    rw [Decoration.hoverMoveBody_none _ 0 buttonB rfl rfl rfl point_in_buttonA.2,
      Decoration.hoverMoveBody_enter _ (0 + 1) buttonA rfl rfl rfl point_in_buttonA.1]
    rfl
  have e2 : Decoration.hoverMoveLoop ⟨.HoverMove, ⟨45, 10⟩, NoButton⟩ 0
      [buttonB, { buttonA with hovered := true }] =
      ([{ buttonB with hovered := true }, { buttonA with hovered := false }],
        [⟨0, .HoverEnter⟩, ⟨1, .HoverLeave⟩]) := by
    simp only [Decoration.hoverMoveLoop]
    rw [Decoration.hoverMoveBody_enter _ 0 buttonB rfl rfl rfl point_in_buttonB.1,
      Decoration.hoverMoveBody_leave _ (0 + 1) { buttonA with hovered := true } rfl rfl rfl
        point_in_buttonB.2]
    rfl
  have s1 : (scenarioBA.hoverMoveEvent ⟨.HoverMove, ⟨15, 10⟩, NoButton⟩).buttons =
      [buttonB, { buttonA with hovered := true }] := by
    rw [Decoration.hoverMoveEvent_buttons]
    exact congrArg Prod.fst e1
  have s2 : (scenarioBA.hoverMoveEvent ⟨.HoverMove, ⟨15, 10⟩, NoButton⟩).delivered =
      [⟨1, .HoverEnter⟩] := by
    rw [Decoration.hoverMoveEvent_delivered]
    exact congrArg Prod.snd e1
  rw [Decoration.hoverMoves_cons, Decoration.hoverMoves_cons, Decoration.hoverMoves,
    List.foldl_nil, Decoration.hoverMoveEvent_delivered, s1, s2, e2]
  rfl

/-- C10 (amended): let A and B be enabled, visible buttons at different positions
`iA`, `iB` of the button list, both not hovered, with non-overlapping geometries.
A run of hover-moves whose points first lie inside A (`ps1`, non-empty) and then
inside B (`ps2`, non-empty) adds exactly three synthesized events for the two
buttons.  When A precedes B in the list they are HoverEnter(A), HoverLeave(A),
HoverEnter(B), in that order; when B precedes A they are HoverEnter(A),
HoverEnter(B), HoverLeave(A).  In both cases each button gets one HoverEnter. -/
theorem hover_enter_A_then_B (d : Decoration) (iA iB : Nat) (A B : DecorationButton)
    (ps1 ps2 : List QPoint) (hne : iA ≠ iB)
    (hA : d.buttons[iA]? = some A) (hB : d.buttons[iB]? = some B)
    (Ae : A.enabled = true) (Av : A.visible = true) (Ah : A.hovered = false)
    (Be : B.enabled = true) (Bv : B.visible = true) (Bh : B.hovered = false)
    (hdisj : ∀ p, ¬ (A.geometry.contains p = true ∧ B.geometry.contains p = true))
    (hps1 : ps1 ≠ []) (hps2 : ps2 ≠ [])
    (h1 : ∀ p ∈ ps1, A.geometry.contains p = true)
    (h2 : ∀ p ∈ ps2, B.geometry.contains p = true) :
    synthesizedFor iA iB (d.hoverMoves (ps1 ++ ps2)).delivered =
      synthesizedFor iA iB d.delivered ++
        (if iA < iB then [⟨iA, .HoverEnter⟩, ⟨iA, .HoverLeave⟩, ⟨iB, .HoverEnter⟩]
         else [⟨iA, .HoverEnter⟩, ⟨iB, .HoverEnter⟩, ⟨iA, .HoverLeave⟩]) := by
  obtain ⟨p1, r1, rfl⟩ := List.exists_cons_of_ne_nil hps1
  obtain ⟨p2, r2, rfl⟩ := List.exists_cons_of_ne_nil hps2
  have outB : ∀ p, A.geometry.contains p = true → B.geometry.contains p = false := by
    intro p hp
    cases hb : B.geometry.contains p
    · rfl
    · exact absurd ⟨hp, hb⟩ (hdisj p)
  have outA : ∀ p, B.geometry.contains p = true → A.geometry.contains p = false := by
    intro p hp
    cases ha : A.geometry.contains p
    · rfl
    · exact absurd ⟨ha, hp⟩ (hdisj p)
  exact Decoration.hoverMoves_enter_then_cross d iA iB A B p1 r1 p2 r2 hne hA hB
    Ae Av Ah Be Bv Bh (fun p hp => ⟨h1 p hp, outB p (h1 p hp)⟩)
    (fun p hp => ⟨h2 p hp, outA p (h2 p hp)⟩)

/-- Witness of C10 (amended): on `scenarioAB` (A at position 0, B at position 1)
the run (15,10), (15,10), (45,10) adds Enter(A), Leave(A), Enter(B). -/
theorem hover_enter_A_then_B_witness :
    synthesizedFor 0 1 (scenarioAB.hoverMoves ([⟨15, 10⟩, ⟨15, 10⟩] ++ [⟨45, 10⟩])).delivered =
      [⟨0, .HoverEnter⟩, ⟨0, .HoverLeave⟩, ⟨1, .HoverEnter⟩] :=
  hover_enter_A_then_B scenarioAB 0 1 buttonA buttonB [⟨15, 10⟩, ⟨15, 10⟩] [⟨45, 10⟩]
    (by decide) rfl rfl rfl rfl rfl rfl rfl rfl buttonA_buttonB_disjoint
    (by simp) (by simp)
    (by intro p hp; simp at hp; subst hp; exact point_in_buttonA.1)
    (by intro p hp; simp at hp; subst hp; exact point_in_buttonB.1)

/-! ### Mouse move, press and release routing -/

namespace Decoration

theorem mouseMoveLoop_none (e : QEvent) :
    ∀ (bs : List DecorationButton) (k : Nat), (∀ b ∈ bs, b.pressed = false) →
      mouseMoveLoop e k bs = (bs, []) := by
  intro bs
  induction bs with
  | nil => intro k _; rfl
  | cons b rest ih =>
    intro k h
    have hb : b.pressed = false := h b (List.mem_cons_self b rest)
    have hr := ih (k + 1) (fun c hc => h c (List.mem_cons_of_mem b hc))
    simp [mouseMoveLoop, hb, hr]

theorem mouseMoveLoop_first (e : QEvent) :
    ∀ (bs : List DecorationButton) (k i : Nat) (b : DecorationButton),
      bs[i]? = some b → b.pressed = true →
      (∀ j c, j < i → bs[j]? = some c → c.pressed = false) →
      mouseMoveLoop e k bs = (bs.set i (b.event e), [⟨k + i, e.type⟩]) := by
  intro bs
  induction bs with
  | nil => intro k i b h; simp at h
  | cons c rest ih =>
    intro k i b h hp hbefore
    cases i with
    | zero =>
      simp only [List.getElem?_cons_zero, Option.some.injEq] at h
      subst h
      simp [mouseMoveLoop, hp, sendEvent]
    | succ i =>
      simp only [List.getElem?_cons_succ] at h
      have hc : c.pressed = false := hbefore 0 c (by omega) (by simp)
      have hr := ih (k + 1) i b h hp
        (fun j x hj hx => hbefore (j + 1) x (by omega) (by simpa using hx))
      simp only [mouseMoveLoop, hc, Bool.false_eq_true, if_false, hr, List.set_cons_succ]
      congr 3
      omega

end Decoration

/-- C11: for every mouse-move event.  If `b`, at position `i`, is the first
pressed button of the list, the event is delivered to position `i` and to no
other button, and only that button handles it, whatever its geometry and hovered
flag are.  If no button is pressed nothing is delivered and the buttons are
unchanged.  In both cases the current Section (and every signal trace) is
unchanged. -/
theorem mouseMove_routing (d : Decoration) (e : QEvent) :
    (∀ i b, d.buttons[i]? = some b → b.pressed = true →
      (∀ j c, j < i → d.buttons[j]? = some c → c.pressed = false) →
      (d.mouseMoveEvent e).delivered = d.delivered ++ [⟨i, e.type⟩] ∧
      (d.mouseMoveEvent e).buttons = d.buttons.set i (b.event e)) ∧
    ((∀ b ∈ d.buttons, b.pressed = false) →
      (d.mouseMoveEvent e).delivered = d.delivered ∧
      (d.mouseMoveEvent e).buttons = d.buttons) ∧
    (d.mouseMoveEvent e).sectionUnderMouse = d.sectionUnderMouse ∧
    (d.mouseMoveEvent e).emitted = d.emitted := by
  refine ⟨fun i b h hp hbefore => ?_, fun h => ?_, rfl, rfl⟩
  · have := Decoration.mouseMoveLoop_first e d.buttons 0 i b h hp hbefore
    simp [Decoration.mouseMoveEvent, this]
  · have := Decoration.mouseMoveLoop_none e d.buttons 0 h
    simp [Decoration.mouseMoveEvent, this]

/-- Witness of C11: in `scenarioPressedB` the pressed button is at position 1;
a mouse-move at (0, 0), outside its geometry, is delivered to it alone. -/
theorem mouseMove_routing_witness :
    (scenarioPressedB.mouseMoveEvent ⟨.MouseMove, ⟨0, 0⟩, NoButton⟩).delivered =
      [⟨1, .MouseMove⟩] :=
  ((mouseMove_routing scenarioPressedB ⟨.MouseMove, ⟨0, 0⟩, NoButton⟩).1 1
    { buttonB with pressed := true } rfl rfl
    (by
      intro j c hj hc
      obtain rfl : j = 0 := by omega
      simp only [scenarioPressedB, List.getElem?_cons_zero, Option.some.injEq] at hc
      subst hc
      rfl)).1

namespace Decoration

theorem mouseReleaseLoop_none (e : QEvent) :
    ∀ (bs : List DecorationButton) (k : Nat),
      (∀ b ∈ bs, (b.pressed && testFlag b.acceptedButtons e.button) = false) →
      mouseReleaseLoop e k bs = (bs, [], false) := by
  intro bs
  induction bs with
  | nil => intro k _; rfl
  | cons b rest ih =>
    intro k h
    have hb := h b (List.mem_cons_self b rest)
    have hr := ih (k + 1) (fun c hc => h c (List.mem_cons_of_mem b hc))
    simp only [mouseReleaseLoop, hb, Bool.false_eq_true, if_false, hr]

theorem mouseReleaseLoop_first (e : QEvent) :
    ∀ (bs : List DecorationButton) (k i : Nat) (b : DecorationButton),
      bs[i]? = some b → (b.pressed && testFlag b.acceptedButtons e.button) = true →
      (∀ j c, j < i → bs[j]? = some c →
        (c.pressed && testFlag c.acceptedButtons e.button) = false) →
      mouseReleaseLoop e k bs = (bs.set i (b.event e), [⟨k + i, e.type⟩], true) := by
  intro bs
  induction bs with
  | nil => intro k i b h; simp at h
  | cons c rest ih =>
    intro k i b h hp hbefore
    cases i with
    | zero =>
      simp only [List.getElem?_cons_zero, Option.some.injEq] at h
      subst h
      simp only [mouseReleaseLoop, hp, if_true, sendEvent, List.set_cons_zero, Nat.add_zero]
    | succ i =>
      simp only [List.getElem?_cons_succ] at h
      have hc := hbefore 0 c (by omega) (by simp)
      have hr := ih (k + 1) i b h hp
        (fun j x hj hx => hbefore (j + 1) x (by omega) (by simpa using hx))
      simp only [mouseReleaseLoop, hc, Bool.false_eq_true, if_false, hr, List.set_cons_succ]
      congr 4
      omega

theorem mousePressLoop_none (e : QEvent) :
    ∀ (bs : List DecorationButton) (k : Nat), (∀ b ∈ bs, b.hovered = false) →
      mousePressLoop e k bs = (bs, [], false) := by
  intro bs
  induction bs with
  | nil => intro k _; rfl
  | cons b rest ih =>
    intro k h
    have hb := h b (List.mem_cons_self b rest)
    have hr := ih (k + 1) (fun c hc => h c (List.mem_cons_of_mem b hc))
    simp only [mousePressLoop, hb, Bool.false_eq_true, if_false, hr]

theorem mousePressLoop_first (e : QEvent) :
    ∀ (bs : List DecorationButton) (k i : Nat) (b : DecorationButton),
      bs[i]? = some b → b.hovered = true →
      (∀ j c, j < i → bs[j]? = some c → c.hovered = false) →
      mousePressLoop e k bs =
        if testFlag b.acceptedButtons e.button then
          (bs.set i (b.event e), [⟨k + i, e.type⟩], true)
        else (bs, [], true) := by
  intro bs
  induction bs with
  | nil => intro k i b h; simp at h
  | cons c rest ih =>
    intro k i b h hp hbefore
    cases i with
    | zero =>
      simp only [List.getElem?_cons_zero, Option.some.injEq] at h
      subst h
      simp only [mousePressLoop, hp, if_true, sendEvent, List.set_cons_zero, Nat.add_zero]
    | succ i =>
      simp only [List.getElem?_cons_succ] at h
      have hc := hbefore 0 c (by omega) (by simp)
      have hr := ih (k + 1) i b h hp
        (fun j x hj hx => hbefore (j + 1) x (by omega) (by simpa using hx))
      simp only [mousePressLoop, hc, Bool.false_eq_true, if_false, hr, List.set_cons_succ]
      have hk : k + 1 + i = k + (i + 1) := by omega
      rw [hk]
      split_ifs <;> rfl

end Decoration

/-- C13: for every release event.  If `b`, at position `i`, is the first button
of the list that is pressed and whose accepted-buttons set contains the event's
pointer button, the release is delivered to position `i` and to no other button,
only that button handles it, and the current Section and the signal trace are
unchanged.  If the list has no such button (a pressed button that does not
accept the released pointer button does not count), nothing is delivered, the
buttons are unchanged and the call is exactly `updateSectionUnderMouse` on the
release point, so the Section becomes the classification of that point. -/
theorem mouseRelease_routing (d : Decoration) (e : QEvent) :
    (∀ i b, d.buttons[i]? = some b →
      b.pressed = true → testFlag b.acceptedButtons e.button = true →
      (∀ j c, j < i → d.buttons[j]? = some c →
        ¬ (c.pressed = true ∧ testFlag c.acceptedButtons e.button = true)) →
      (d.mouseReleaseEvent e).delivered = d.delivered ++ [⟨i, e.type⟩] ∧
      (d.mouseReleaseEvent e).buttons = d.buttons.set i (b.event e) ∧
      (d.mouseReleaseEvent e).sectionUnderMouse = d.sectionUnderMouse ∧
      (d.mouseReleaseEvent e).emitted = d.emitted) ∧
    ((∀ b ∈ d.buttons, ¬ (b.pressed = true ∧ testFlag b.acceptedButtons e.button = true)) →
      (d.mouseReleaseEvent e).delivered = d.delivered ∧
      (d.mouseReleaseEvent e).buttons = d.buttons ∧
      (d.mouseReleaseEvent e).sectionUnderMouse =
        (d.updateSectionUnderMouse e.pos).sectionUnderMouse ∧
      d.mouseReleaseEvent e = d.updateSectionUnderMouse e.pos) := by
  refine ⟨fun i b h hp ha hbefore => ?_, fun h => ?_⟩
  · have hl := Decoration.mouseReleaseLoop_first e d.buttons 0 i b h (by simp [hp, ha])
      (fun j c hj hc => by
        have := hbefore j c hj hc
        cases hcp : c.pressed <;> cases hct : testFlag c.acceptedButtons e.button <;> simp_all)
    simp [Decoration.mouseReleaseEvent, hl]
  · have hl := Decoration.mouseReleaseLoop_none e d.buttons 0
      (fun b hb => by
        have := h b hb
        cases hcp : b.pressed <;> cases hct : testFlag b.acceptedButtons e.button <;> simp_all)
    have heq : d.mouseReleaseEvent e = d.updateSectionUnderMouse e.pos := by
      simp [Decoration.mouseReleaseEvent, hl]
    rw [heq]
    exact ⟨(Decoration.updateSectionUnderMouse_eq d e.pos ▸
        (Decoration.setSectionUnderMouse_buttons d _).2),
      (Decoration.updateSectionUnderMouse_eq d e.pos ▸
        (Decoration.setSectionUnderMouse_buttons d _).1), rfl, rfl⟩

/-- Witness of C13: in `scenarioPressedB` (the pressed button, at position 1,
accepts only the left button) a left-button release at (0, 0) is delivered to
position 1 and the Section stays NoSection; a right-button release at (0, 0) is
delivered to nobody and the Section becomes TopLeft. -/
theorem mouseRelease_routing_witness :
    ((scenarioPressedB.mouseReleaseEvent ⟨.MouseButtonRelease, ⟨0, 0⟩, LeftButton⟩).delivered =
        [⟨1, .MouseButtonRelease⟩] ∧
      (scenarioPressedB.mouseReleaseEvent
        ⟨.MouseButtonRelease, ⟨0, 0⟩, LeftButton⟩).sectionUnderMouse = .NoSection) ∧
    ((scenarioPressedB.mouseReleaseEvent ⟨.MouseButtonRelease, ⟨0, 0⟩, RightButton⟩).delivered =
        [] ∧
      (scenarioPressedB.mouseReleaseEvent
        ⟨.MouseButtonRelease, ⟨0, 0⟩, RightButton⟩).sectionUnderMouse = .TopLeftSection) := by
  have h1 := (mouseRelease_routing scenarioPressedB ⟨.MouseButtonRelease, ⟨0, 0⟩, LeftButton⟩).1 1
    { buttonB with pressed := true } rfl rfl (by decide)
    (by
      intro j c hj hc
      obtain rfl : j = 0 := by omega
      simp only [scenarioPressedB, List.getElem?_cons_zero, Option.some.injEq] at hc
      subst hc
      simp [buttonA])
  have h2 := (mouseRelease_routing scenarioPressedB ⟨.MouseButtonRelease, ⟨0, 0⟩, RightButton⟩).2
    (by
      intro b hb
      simp only [scenarioPressedB, List.mem_cons, List.mem_singleton, List.not_mem_nil,
        or_false] at hb
      rcases hb with rfl | rfl
      · simp [buttonA]
      · simp only [buttonB]; decide)
  refine ⟨⟨h1.1, h1.2.2.1⟩, ⟨h2.1, ?_⟩⟩
  rw [h2.2.2.1, Decoration.updateSectionUnderMouse_section]
  decide

/-- C14: for every press event.  If no button is hovered, nothing is delivered,
the buttons are unchanged and the decoration does not call
`event->setAccepted(true)`.  If `b`, at position `i`, is the first hovered button
of the list, the decoration calls `event->setAccepted(true)` whether or not `b`
accepts the pointer button; when `b` accepts it the press is delivered to
position `i` only, otherwise nothing is delivered and no button changes.  In all
cases the current Section and the signal trace are unchanged. -/
theorem mousePress_routing (d : Decoration) (e : QEvent) :
    ((∀ b ∈ d.buttons, b.hovered = false) →
      (d.mousePressEvent e).1.delivered = d.delivered ∧
      (d.mousePressEvent e).1.buttons = d.buttons ∧
      (d.mousePressEvent e).2 = false) ∧
    (∀ i b, d.buttons[i]? = some b → b.hovered = true →
      (∀ j c, j < i → d.buttons[j]? = some c → c.hovered = false) →
      (d.mousePressEvent e).2 = true ∧
      (testFlag b.acceptedButtons e.button = true →
        (d.mousePressEvent e).1.delivered = d.delivered ++ [⟨i, e.type⟩] ∧
        (d.mousePressEvent e).1.buttons = d.buttons.set i (b.event e)) ∧
      (testFlag b.acceptedButtons e.button = false →
        (d.mousePressEvent e).1.delivered = d.delivered ∧
        (d.mousePressEvent e).1.buttons = d.buttons)) ∧
    (d.mousePressEvent e).1.sectionUnderMouse = d.sectionUnderMouse ∧
    (d.mousePressEvent e).1.emitted = d.emitted := by
  refine ⟨fun h => ?_, fun i b h hp hbefore => ?_, rfl, rfl⟩
  · have hl := Decoration.mousePressLoop_none e d.buttons 0 h
    simp [Decoration.mousePressEvent, hl]
  · have hl := Decoration.mousePressLoop_first e d.buttons 0 i b h hp hbefore
    refine ⟨?_, fun ha => ?_, fun ha => ?_⟩
    · simp only [Decoration.mousePressEvent, hl]
      split_ifs <;> rfl
    · rw [if_pos ha] at hl
      simp [Decoration.mousePressEvent, hl]
    · rw [if_neg (by simp [ha])] at hl
      simp [Decoration.mousePressEvent, hl]

/-- Witness of C14: in `scenarioHoveredB` the hovered button is at position 1 and
accepts only the left button.  A left press is accepted and delivered to
position 1; a right press is accepted and delivered to nobody; in the scenario
without buttons a press is not accepted. -/
theorem mousePress_routing_witness :
    ((scenarioHoveredB.mousePressEvent ⟨.MouseButtonPress, ⟨45, 10⟩, LeftButton⟩).2 = true ∧
      (scenarioHoveredB.mousePressEvent ⟨.MouseButtonPress, ⟨45, 10⟩, LeftButton⟩).1.delivered =
        [⟨1, .MouseButtonPress⟩]) ∧
    ((scenarioHoveredB.mousePressEvent ⟨.MouseButtonPress, ⟨45, 10⟩, RightButton⟩).2 = true ∧
      (scenarioHoveredB.mousePressEvent ⟨.MouseButtonPress, ⟨45, 10⟩, RightButton⟩).1.delivered =
        []) ∧
    (scenario.mousePressEvent ⟨.MouseButtonPress, ⟨45, 10⟩, LeftButton⟩).2 = false := by
  have hfirst : ∀ j c, j < 1 → scenarioHoveredB.buttons[j]? = some c → c.hovered = false := by
    intro j c hj hc
    obtain rfl : j = 0 := by omega
    simp only [scenarioHoveredB, List.getElem?_cons_zero, Option.some.injEq] at hc
    subst hc
    rfl
  have h1 := (mousePress_routing scenarioHoveredB ⟨.MouseButtonPress, ⟨45, 10⟩, LeftButton⟩).2.1 1
    { buttonB with hovered := true } rfl rfl hfirst
  have h2 := (mousePress_routing scenarioHoveredB ⟨.MouseButtonPress, ⟨45, 10⟩, RightButton⟩).2.1 1
    { buttonB with hovered := true } rfl rfl hfirst
  have h3 := (mousePress_routing scenario ⟨.MouseButtonPress, ⟨45, 10⟩, LeftButton⟩).1
    (by intro b hb; simp [scenario] at hb)
  exact ⟨⟨h1.1, (h1.2.1 (by decide)).1⟩, ⟨h2.1, (h2.2.2 (by decide)).1⟩, h3.2.2⟩

/-! ### Hover events: per-button outcome and Section -/

namespace Decoration

theorem hoverMoveLoop_filter_receiver (e : QEvent) :
    ∀ (bs : List DecorationButton) (k i r : Nat) (a : DecorationButton),
      r = k + i → bs[i]? = some a →
      (hoverMoveLoop e k bs).2.filter (fun x => x.receiver == r) = (hoverMoveBody e r a).2 := by
  intro bs
  induction bs with
  | nil => intro k i r a _ h; simp at h
  | cons b rest ih =>
    intro k i r a hr h
    simp only [hoverMoveLoop, List.filter_append]
    cases i with
    | zero =>
      simp only [List.getElem?_cons_zero, Option.some.injEq] at h
      subst h
      have hr0 : r = k := by omega
      subst hr0
      have h1 : (hoverMoveLoop e (r + 1) rest).2.filter (fun x => x.receiver == r) = [] := by
        rw [List.filter_eq_nil_iff]
        intro x hx
        have := hoverMoveLoop_receiver_ge e rest (r + 1) x hx
        have hne : x.receiver ≠ r := by omega
        simp [hne]
      rw [h1, List.append_nil, List.filter_eq_self]
      intro x hx
      simp [hoverMoveBody_receiver e r b x hx]
    | succ i =>
      simp only [List.getElem?_cons_succ] at h
      have h1 : (hoverMoveBody e k b).2.filter (fun x => x.receiver == r) = [] := by
        rw [List.filter_eq_nil_iff]
        intro x hx
        have := hoverMoveBody_receiver e k b x hx
        have hne : x.receiver ≠ r := by omega
        simp [hne]
      rw [h1, List.nil_append]
      exact ih (k + 1) i r a (by omega) h

theorem receivedBy_hoverMoveEvent (d : Decoration) (e : QEvent) (i : Nat)
    (b : DecorationButton) (h : d.buttons[i]? = some b) :
    receivedBy i d (d.hoverMoveEvent e) = (hoverMoveBody e i b).2 := by
  unfold receivedBy
  rw [hoverMoveEvent_delivered, List.drop_left]
  exact hoverMoveLoop_filter_receiver e d.buttons 0 i i b (by omega) h

end Decoration

/-- C15: for every hover-move event and every button `b` (at position `i`), the
events `b` is sent by this call are: none if `b` is disabled or invisible; one
synthesized HoverEnter if `b` is not hovered and its geometry contains the point;
one synthesized HoverLeave if `b` is hovered and its geometry does not contain
the point; the event itself (the raw hover-move) if `b` is hovered and its
geometry contains the point; none if `b` is not hovered and its geometry does
not contain the point.  So `b` is sent at most one event. -/
theorem hoverMove_per_button (d : Decoration) (e : QEvent) (i : Nat) (b : DecorationButton)
    (h : d.buttons[i]? = some b) :
    ((b.enabled = false ∨ b.visible = false) → receivedBy i d (d.hoverMoveEvent e) = []) ∧
    (b.enabled = true → b.visible = true → b.hovered = false →
      b.geometry.contains e.pos = true →
      receivedBy i d (d.hoverMoveEvent e) = [⟨i, .HoverEnter⟩]) ∧
    (b.enabled = true → b.visible = true → b.hovered = true →
      b.geometry.contains e.pos = false →
      receivedBy i d (d.hoverMoveEvent e) = [⟨i, .HoverLeave⟩]) ∧
    (b.enabled = true → b.visible = true → b.hovered = true →
      b.geometry.contains e.pos = true →
      receivedBy i d (d.hoverMoveEvent e) = [⟨i, e.type⟩]) ∧
    (b.enabled = true → b.visible = true → b.hovered = false →
      b.geometry.contains e.pos = false →
      receivedBy i d (d.hoverMoveEvent e) = []) ∧
    (receivedBy i d (d.hoverMoveEvent e)).length ≤ 1 := by
  rw [Decoration.receivedBy_hoverMoveEvent d e i b h]
  unfold Decoration.hoverMoveBody Decoration.sendEvent
  refine ⟨?_, ?_, ?_, ?_, ?_, ?_⟩
  · rintro (h1 | h1) <;> simp [h1]
  · intro h1 h2 h3 h4; simp [h1, h2, h3, h4]
  · intro h1 h2 h3 h4; simp [h1, h2, h3, h4]
  · intro h1 h2 h3 h4; simp [h1, h2, h3, h4]
  · intro h1 h2 h3 h4; simp [h1, h2, h3, h4]
  · dsimp only
    split_ifs <;> simp

/-- Witness of C15: in `scenarioAB` a hover-move at (15, 10) sends HoverEnter to
`buttonA` (position 0) and nothing to `buttonB` (position 1). -/
theorem hoverMove_per_button_witness :
    receivedBy 0 scenarioAB (scenarioAB.hoverMoveEvent ⟨.HoverMove, ⟨15, 10⟩, NoButton⟩) =
        [⟨0, .HoverEnter⟩] ∧
      receivedBy 1 scenarioAB (scenarioAB.hoverMoveEvent ⟨.HoverMove, ⟨15, 10⟩, NoButton⟩) =
        [] :=
  ⟨(hoverMove_per_button scenarioAB ⟨.HoverMove, ⟨15, 10⟩, NoButton⟩ 0 buttonA rfl).2.1
      rfl rfl rfl point_in_buttonA.1,
    (hoverMove_per_button scenarioAB ⟨.HoverMove, ⟨15, 10⟩, NoButton⟩ 1 buttonB rfl).2.2.2.2.1
      rfl rfl rfl point_in_buttonA.2⟩

/-- C16: after `hoverEnterEvent` or `hoverMoveEvent` at point `p` the current
Section is the one `updateSectionUnderMouse(p)` gives on the state before the
event, and after `hoverLeaveEvent` it is NoSection; replacing the button list by
any other list (other flags, other geometries) changes none of the three
results.  A hover-leave that arrives while the Section is NoSection leaves the
signal trace unchanged. -/
theorem hover_section (d : Decoration) (e : QEvent) :
    (d.hoverEnterEvent e).sectionUnderMouse =
        (d.updateSectionUnderMouse e.pos).sectionUnderMouse ∧
    (d.hoverMoveEvent e).sectionUnderMouse =
        (d.updateSectionUnderMouse e.pos).sectionUnderMouse ∧
    (d.hoverLeaveEvent e).sectionUnderMouse = .NoSection ∧
    (∀ bs : List DecorationButton,
      (({ d with buttons := bs } : Decoration).hoverEnterEvent e).sectionUnderMouse =
          (d.hoverEnterEvent e).sectionUnderMouse ∧
      (({ d with buttons := bs } : Decoration).hoverMoveEvent e).sectionUnderMouse =
          (d.hoverMoveEvent e).sectionUnderMouse ∧
      (({ d with buttons := bs } : Decoration).hoverLeaveEvent e).sectionUnderMouse =
          (d.hoverLeaveEvent e).sectionUnderMouse) ∧
    (d.sectionUnderMouse = .NoSection → (d.hoverLeaveEvent e).emitted = d.emitted) := by
  have henter : ∀ x : Decoration, (x.hoverEnterEvent e).sectionUnderMouse = x.sectionAt e.pos := by
    intro x
    unfold Decoration.hoverEnterEvent
    simp only [Decoration.updateSectionUnderMouse_section]
    rfl
  have hmove : ∀ x : Decoration, (x.hoverMoveEvent e).sectionUnderMouse = x.sectionAt e.pos := by
    intro x
    unfold Decoration.hoverMoveEvent
    simp only [Decoration.updateSectionUnderMouse_section]
    rfl
  have hleave : ∀ x : Decoration, (x.hoverLeaveEvent e).sectionUnderMouse = .NoSection := by
    intro x
    unfold Decoration.hoverLeaveEvent
    simp only [Decoration.setSectionUnderMouse_section]
  refine ⟨?_, ?_, hleave d, fun bs => ⟨?_, ?_, ?_⟩, fun h0 => ?_⟩
  · rw [henter, Decoration.updateSectionUnderMouse_section]
  · rw [hmove, Decoration.updateSectionUnderMouse_section]
  · rw [henter, henter]; rfl
  · rw [hmove, hmove]; rfl
  · rw [hleave, hleave]
  · unfold Decoration.hoverLeaveEvent Decoration.setSectionUnderMouse
    simp only [h0, if_true]

/-- Witness of C16: the scenario's Section is NoSection; a hover-leave emits
nothing and a hover-enter at (2, 2) makes the Section TopLeft. -/
theorem hover_section_witness :
    (scenarioAB.hoverLeaveEvent ⟨.HoverLeave, ⟨2, 2⟩, NoButton⟩).emitted = [] ∧
      (scenarioAB.hoverEnterEvent ⟨.HoverEnter, ⟨2, 2⟩, NoButton⟩).sectionUnderMouse =
        .TopLeftSection :=
  ⟨(hover_section scenarioAB ⟨.HoverLeave, ⟨2, 2⟩, NoButton⟩).2.2.2.2 rfl,
    by rw [(hover_section scenarioAB ⟨.HoverEnter, ⟨2, 2⟩, NoButton⟩).1]; decide⟩

/-! ### Further properties of the classifier -/

/-- C19: the Section after `updateSectionUnderMouse(p)` is NoSection exactly
when the title bar does not contain `p` and none of the four flags
(`x < borders.left`, `y < borders.top`, `height - y <= borders.bottom`,
`width - x <= borders.right`) holds; so whenever `p` is in the title bar or some
flag holds, the Section is one of the nine other values. -/
theorem noSection_iff (d : Decoration) (p : QPoint) :
    ((d.updateSectionUnderMouse p).sectionUnderMouse = .NoSection ↔
      (d.titleBar.contains p = false ∧ ¬ p.x < d.borders.left ∧ ¬ p.y < d.borders.top ∧
        ¬ d.size.height - p.y ≤ d.borders.bottom ∧ ¬ d.size.width - p.x ≤ d.borders.right)) ∧
    ((d.titleBar.contains p = true ∨ p.x < d.borders.left ∨ p.y < d.borders.top ∨
        d.size.height - p.y ≤ d.borders.bottom ∨ d.size.width - p.x ≤ d.borders.right) →
      (d.updateSectionUnderMouse p).sectionUnderMouse ≠ .NoSection) := by
  have key : d.sectionAt p = .NoSection ↔
      (d.titleBar.contains p = false ∧ ¬ p.x < d.borders.left ∧ ¬ p.y < d.borders.top ∧
        ¬ d.size.height - p.y ≤ d.borders.bottom ∧ ¬ d.size.width - p.x ≤ d.borders.right) := by
    unfold Decoration.sectionAt
    simp only []
    split_ifs <;> simp_all
  rw [Decoration.updateSectionUnderMouse_section]
  refine ⟨key, fun h hn => ?_⟩
  have := key.1 hn
  rcases h with h | h | h | h | h
  · rw [this.1] at h; exact Bool.false_ne_true h
  · exact this.2.1 h
  · exact this.2.2.1 h
  · exact this.2.2.2.1 h
  · exact this.2.2.2.2 h

namespace Decoration

theorem mirrored_size (d : Decoration) : d.mirrored.size = d.size := by
  simp only [mirrored, size, QSize.mk.injEq, and_true]
  ring

theorem mirrored_contains (d : Decoration) (p : QPoint) :
    d.mirrored.titleBar.contains (d.mirrorPoint p) = d.titleBar.contains p := by
  simp only [mirrored, mirrorPoint, QRect.contains]
  generalize d.size.width = w
  by_cases h1 : d.titleBar.x2 < d.titleBar.x1 - 1
  · have h2 : w - 1 - d.titleBar.x1 < w - 1 - d.titleBar.x2 - 1 := by omega
    simp only [h1, h2, if_true]
    by_cases h3 : p.x < d.titleBar.x2 <;> by_cases h4 : p.x > d.titleBar.x1
    all_goals
      have h5 : (w - 1 - p.x < w - 1 - d.titleBar.x1) = (p.x > d.titleBar.x1) := by
        apply propext; constructor <;> intro <;> omega
      have h6 : (w - 1 - p.x > w - 1 - d.titleBar.x2) = (p.x < d.titleBar.x2) := by
        apply propext; constructor <;> intro <;> omega
      simp only [h5, h6, h3, h4, Bool.or_comm]
  · have h2 : ¬ w - 1 - d.titleBar.x1 < w - 1 - d.titleBar.x2 - 1 := by omega
    simp only [h1, h2, if_false]
    by_cases h3 : p.x < d.titleBar.x1 <;> by_cases h4 : p.x > d.titleBar.x2
    all_goals
      have h5 : (w - 1 - p.x < w - 1 - d.titleBar.x2) = (p.x > d.titleBar.x2) := by
        apply propext; constructor <;> intro <;> omega
      have h6 : (w - 1 - p.x > w - 1 - d.titleBar.x1) = (p.x < d.titleBar.x1) := by
        apply propext; constructor <;> intro <;> omega
      simp only [h5, h6, h3, h4, Bool.or_comm]

end Decoration

/-- C20: for every geometry with non-negative client width (the borders may be
any values) and every point `p` for which the left or the right flag holds, the
Section of the mirrored point `(width - 1 - x, y)` in the mirrored geometry is
the mirror image of the Section of `p`. -/
theorem mirror_symmetry (d : Decoration) (p : QPoint)
    (hw : 0 ≤ d.client.width)
    (hflag : p.x < d.borders.left ∨ d.size.width - p.x ≤ d.borders.right) :
    (d.mirrored.updateSectionUnderMouse (d.mirrorPoint p)).sectionUnderMouse =
      mirrorSection (d.updateSectionUnderMouse p).sectionUnderMouse := by
  rw [Decoration.updateSectionUnderMouse_section, Decoration.updateSectionUnderMouse_section]
  unfold Decoration.sectionAt
  rw [Decoration.mirrored_contains, Decoration.mirrored_size]
  by_cases hc : d.titleBar.contains p = true
  · simp only [hc, if_true, mirrorSection]
  · simp only [hc, Bool.false_eq_true, if_false]
    have hsz : d.size.width = d.client.width + d.borders.left + d.borders.right := rfl
    simp only [Decoration.mirrored, Decoration.mirrorPoint, QRect.top, QRect.bottom]
    by_cases hl : p.x < d.borders.left
    · have hr : ¬ d.size.width - p.x ≤ d.borders.right := by omega
      have hl2 : ¬ d.size.width - 1 - p.x < d.borders.right := by omega
      have hr2 : d.size.width - (d.size.width - 1 - p.x) ≤ d.borders.left := by omega
      simp only [hl, hr, hl2, hr2, decide_True, decide_False, if_true, Bool.false_eq_true,
        if_false]
      split_ifs <;> simp [mirrorSection]
    · have hr : d.size.width - p.x ≤ d.borders.right := by
        rcases hflag with h | h
        · exact absurd h hl
        · exact h
      have hl2 : d.size.width - 1 - p.x < d.borders.right := by omega
      simp only [hl, hr, hl2, decide_True, decide_False, if_true, Bool.false_eq_true,
        if_false]
      split_ifs <;> simp [mirrorSection]

/-- Witness of C20: in the scenario the point (2, 2) is TopLeft; its mirror image
(197, 2) in the mirrored scenario is TopRight. -/
theorem mirror_symmetry_witness :
    scenario.mirrorPoint ⟨2, 2⟩ = ⟨197, 2⟩ ∧
      (scenario.mirrored.updateSectionUnderMouse ⟨197, 2⟩).sectionUnderMouse =
        .TopRightSection :=
  ⟨by decide, mirror_symmetry scenario ⟨2, 2⟩ (by decide) (by decide)⟩

/-! ### Pressed buttons over event sequences -/

theorem DecorationButton.event_pressed (b : DecorationButton) (e : QEvent)
    (h : e.type ≠ .MouseButtonPress) :
    (b.event e).pressed = true → b.pressed = true := by
  unfold DecorationButton.event
  split
  · exact id
  · exact id
  · rename_i h1; exact absurd h1 h
  · split_ifs
    · intro h2; simp at h2
    · exact id
  · exact id

theorem pressedCount_cons (b : DecorationButton) (bs : List DecorationButton) :
    pressedCount (b :: bs) = pressedCount bs + if b.pressed = true then 1 else 0 := by
  unfold pressedCount
  rw [List.countP_cons]

theorem pressedCount_cons_le (b c : DecorationButton) (bs cs : List DecorationButton)
    (h1 : c.pressed = true → b.pressed = true) (h2 : pressedCount cs ≤ pressedCount bs) :
    pressedCount (c :: cs) ≤ pressedCount (b :: bs) := by
  rw [pressedCount_cons, pressedCount_cons]
  by_cases hc : c.pressed = true
  · rw [if_pos hc, if_pos (h1 hc)]; omega
  · rw [if_neg hc]; split_ifs <;> omega

namespace Decoration

theorem sendToAll_pressedCount (e : QEvent) (h : e.type ≠ .MouseButtonPress) :
    ∀ (bs : List DecorationButton) (k : Nat),
      pressedCount (sendToAll e k bs).1 ≤ pressedCount bs := by
  intro bs
  induction bs with
  | nil => intro k; exact Nat.le_refl _
  | cons b rest ih =>
    intro k
    simp only [sendToAll, sendEvent]
    exact pressedCount_cons_le _ _ _ _ (b.event_pressed e h) (ih (k + 1))

theorem hoverMoveBody_pressed (e : QEvent) (h : e.type ≠ .MouseButtonPress) (i : Nat)
    (b : DecorationButton) : (hoverMoveBody e i b).1.pressed = true → b.pressed = true := by
  unfold hoverMoveBody sendEvent
  dsimp only
  split_ifs
  · exact id
  · exact b.event_pressed _ (by simp)
  · exact b.event_pressed _ (by simp)
  · exact b.event_pressed e h
  · exact id

theorem hoverMoveLoop_pressedCount (e : QEvent) (h : e.type ≠ .MouseButtonPress) :
    ∀ (bs : List DecorationButton) (k : Nat),
      pressedCount (hoverMoveLoop e k bs).1 ≤ pressedCount bs := by
  intro bs
  induction bs with
  | nil => intro k; exact Nat.le_refl _
  | cons b rest ih =>
    intro k
    simp only [hoverMoveLoop]
    exact pressedCount_cons_le _ _ _ _ (hoverMoveBody_pressed e h k b) (ih (k + 1))

theorem mouseMoveLoop_pressedCount (e : QEvent) (h : e.type ≠ .MouseButtonPress) :
    ∀ (bs : List DecorationButton) (k : Nat),
      pressedCount (mouseMoveLoop e k bs).1 ≤ pressedCount bs := by
  intro bs
  induction bs with
  | nil => intro k; exact Nat.le_refl _
  | cons b rest ih =>
    intro k
    simp only [mouseMoveLoop, sendEvent]
    split_ifs
    · exact pressedCount_cons_le _ _ _ _ (b.event_pressed e h) (Nat.le_refl _)
    · exact pressedCount_cons_le _ _ _ _ id (ih (k + 1))

theorem mouseReleaseLoop_pressedCount (e : QEvent) (h : e.type ≠ .MouseButtonPress) :
    ∀ (bs : List DecorationButton) (k : Nat),
      pressedCount (mouseReleaseLoop e k bs).1 ≤ pressedCount bs := by
  intro bs
  induction bs with
  | nil => intro k; exact Nat.le_refl _
  | cons b rest ih =>
    intro k
    simp only [mouseReleaseLoop, sendEvent]
    split_ifs
    · exact pressedCount_cons_le _ _ _ _ (b.event_pressed e h) (Nat.le_refl _)
    · exact pressedCount_cons_le _ _ _ _ id (ih (k + 1))

theorem wheelLoop_pressedCount (e : QEvent) (h : e.type ≠ .MouseButtonPress) :
    ∀ (bs : List DecorationButton) (k : Nat),
      pressedCount (wheelLoop e k bs).1 ≤ pressedCount bs := by
  intro bs
  induction bs with
  | nil => intro k; exact Nat.le_refl _
  | cons b rest ih =>
    intro k
    simp only [wheelLoop, sendEvent]
    split_ifs
    · exact pressedCount_cons_le _ _ _ _ (b.event_pressed e h) (ih (k + 1))
    · exact pressedCount_cons_le _ _ _ _ id (ih (k + 1))

theorem mousePressLoop_pressedCount (e : QEvent) :
    ∀ (bs : List DecorationButton) (k : Nat),
      pressedCount (mousePressLoop e k bs).1 ≤ pressedCount bs + 1 := by
  intro bs
  induction bs with
  | nil => intro k; exact Nat.le_succ _
  | cons b rest ih =>
    intro k
    simp only [mousePressLoop, sendEvent]
    split_ifs
    · rw [pressedCount_cons, pressedCount_cons]
      split_ifs <;> omega
    · exact Nat.le_succ _
    · have := ih (k + 1)
      rw [pressedCount_cons, pressedCount_cons]
      omega

theorem updateSectionUnderMouse_buttons (d : Decoration) (p : QPoint) :
    (d.updateSectionUnderMouse p).buttons = d.buttons := by
  rw [updateSectionUnderMouse_eq, (setSectionUnderMouse_buttons _ _).1]

/-- An event other than a press never raises the number of pressed buttons. -/
theorem event_pressedCount_le (d : Decoration) (e : QEvent)
    (h : e.type ≠ .MouseButtonPress) :
    pressedCount (d.event e).buttons ≤ pressedCount d.buttons := by
  unfold Decoration.event
  split
  · unfold hoverEnterEvent
    simp only [updateSectionUnderMouse_buttons]
    exact sendToAll_pressedCount e h d.buttons 0
  · unfold hoverLeaveEvent
    simp only [(setSectionUnderMouse_buttons _ _).1]
    exact sendToAll_pressedCount e h d.buttons 0
  · rw [hoverMoveEvent_buttons]
    exact hoverMoveLoop_pressedCount e h d.buttons 0
  · rename_i h1; exact absurd h1 h
  · unfold mouseReleaseEvent
    dsimp only
    split_ifs
    · exact mouseReleaseLoop_pressedCount e h d.buttons 0
    · rw [updateSectionUnderMouse_buttons]
      exact mouseReleaseLoop_pressedCount e h d.buttons 0
  · exact mouseMoveLoop_pressedCount e h d.buttons 0
  · exact wheelLoop_pressedCount e h d.buttons 0

/-- Any event raises the number of pressed buttons by at most one. -/
theorem event_pressedCount_succ (d : Decoration) (e : QEvent) :
    pressedCount (d.event e).buttons ≤ pressedCount d.buttons + 1 := by
  by_cases h : e.type = .MouseButtonPress
  · unfold Decoration.event
    rw [h]
    exact mousePressLoop_pressedCount e d.buttons 0
  · exact Nat.le_succ_of_le (event_pressedCount_le d e h)

theorem dispatch_pressedCount :
    ∀ (es : List QEvent) (d : Decoration), pressedCount d.buttons ≤ 1 →
      d.pressesWhileReleased es = true → pressedCount (d.dispatch es).buttons ≤ 1 := by
  intro es
  induction es with
  | nil => intro d h _; exact h
  | cons e es ih =>
    intro d h hd
    simp only [pressesWhileReleased, Bool.and_eq_true, Bool.or_eq_true, bne_iff_ne, ne_eq,
      beq_iff_eq] at hd
    have hstep : pressedCount (d.event e).buttons ≤ 1 := by
      rcases hd.1 with h1 | h1
      · exact Nat.le_trans (event_pressedCount_le d e h1) h
      · have := event_pressedCount_succ d e
        omega
    exact ih (d.event e) hstep hd.2

end Decoration

/-- Counterexample to C12 as stated: from `scenarioAB`, where no button is
pressed, the sequence hover-move into `buttonA`, left press, hover-move into
`buttonB`, left press (no release in between) reaches a state in which both
buttons are pressed. -/
theorem pressed_counterexample :
    pressedCount scenarioAB.buttons = 0 ∧
      (scenarioAB.dispatch pressTwice).buttons.map (fun b => b.pressed) = [true, true] ∧
      pressedCount (scenarioAB.dispatch pressTwice).buttons = 2 := by
  have e1 : Decoration.hoverMoveLoop ⟨.HoverMove, ⟨15, 10⟩, NoButton⟩ 0 [buttonA, buttonB] =
      ([{ buttonA with hovered := true }, buttonB], [⟨0, .HoverEnter⟩]) := by
    simp only [Decoration.hoverMoveLoop]
    rw [Decoration.hoverMoveBody_enter _ 0 buttonA rfl rfl rfl point_in_buttonA.1,
      Decoration.hoverMoveBody_none _ (0 + 1) buttonB rfl rfl rfl point_in_buttonA.2]
    rfl
  have e3 : Decoration.hoverMoveLoop ⟨.HoverMove, ⟨45, 10⟩, NoButton⟩ 0
      [{ buttonA with hovered := true, pressed := true }, buttonB] =
      ([{ buttonA with hovered := false, pressed := true }, { buttonB with hovered := true }],
        [⟨0, .HoverLeave⟩, ⟨1, .HoverEnter⟩]) := by
    simp only [Decoration.hoverMoveLoop]
    rw [Decoration.hoverMoveBody_leave _ 0 { buttonA with hovered := true, pressed := true }
        rfl rfl rfl point_in_buttonB.2,
      Decoration.hoverMoveBody_enter _ (0 + 1) buttonB rfl rfl rfl point_in_buttonB.1]
    rfl
  have s1 : (scenarioAB.event ⟨.HoverMove, ⟨15, 10⟩, NoButton⟩).buttons =
      [{ buttonA with hovered := true }, buttonB] := by
    show (scenarioAB.hoverMoveEvent _).buttons = _
    rw [Decoration.hoverMoveEvent_buttons]
    exact congrArg Prod.fst e1
  have s2 : ((scenarioAB.event ⟨.HoverMove, ⟨15, 10⟩, NoButton⟩).event
      ⟨.MouseButtonPress, ⟨15, 10⟩, LeftButton⟩).buttons =
      [{ buttonA with hovered := true, pressed := true }, buttonB] := by
    show (Decoration.mousePressLoop _ 0 (scenarioAB.event _).buttons).1 = _
    rw [s1]
    rfl
  have s3 : (((scenarioAB.event ⟨.HoverMove, ⟨15, 10⟩, NoButton⟩).event
      ⟨.MouseButtonPress, ⟨15, 10⟩, LeftButton⟩).event
      ⟨.HoverMove, ⟨45, 10⟩, NoButton⟩).buttons =
      [{ buttonA with hovered := false, pressed := true }, { buttonB with hovered := true }] := by
    show (Decoration.hoverMoveEvent _ _).buttons = _
    rw [Decoration.hoverMoveEvent_buttons, s2]
    exact congrArg Prod.fst e3
  have s4 : (scenarioAB.dispatch pressTwice).buttons =
      [{ buttonA with hovered := false, pressed := true },
       { buttonB with hovered := true, pressed := true }] := by
    show (Decoration.mousePressLoop _ 0 (Decoration.event _ _).buttons).1 = _
    rw [s3]
    rfl
  rw [s4]
  exact ⟨rfl, rfl, rfl⟩

/-- C12 (amended): in every state reached from a state with no pressed button by
dispatching, through `Decoration::event`, a sequence of hover-enter, hover-leave,
hover-move, press, move, release and wheel events in which every press arrives
while no button is pressed, at most one button has `pressed == true` (a button
becomes pressed when it receives a press it accepts and stops being pressed when
it receives the release of a pointer button it accepts). -/
theorem at_most_one_pressed (d : Decoration) (es : List QEvent)
    (h0 : pressedCount d.buttons = 0) (hd : d.pressesWhileReleased es = true) :
    pressedCount (d.dispatch es).buttons ≤ 1 :=
  Decoration.dispatch_pressedCount es d (by omega) hd

/-- Witness of C12 (amended): from `scenarioHoveredB` the sequence press, move,
release, press keeps the discipline and ends with exactly one pressed button. -/
theorem at_most_one_pressed_witness :
    pressedCount scenarioHoveredB.buttons = 0 ∧
      scenarioHoveredB.pressesWhileReleased pressReleasePress = true ∧
      pressedCount (scenarioHoveredB.dispatch pressReleasePress).buttons ≤ 1 :=
  ⟨by decide, by decide,
    at_most_one_pressed scenarioHoveredB pressReleasePress (by decide) (by decide)⟩

/-- Counterexample to C18 as stated: in `scenarioInconsistent` the left border
is negative and the title bar lies outside `rect()`, yet
`updateSectionUnderMouse` at (190, 100) returns with the Section Right and emits
the usual signal. -/
theorem inconsistent_geometry_counterexample :
    scenarioInconsistent.borders.left < 0 ∧
      scenarioInconsistent.rect.contains
        ⟨scenarioInconsistent.titleBar.x1, scenarioInconsistent.titleBar.y1⟩ = false ∧
      (scenarioInconsistent.updateSectionUnderMouse ⟨190, 100⟩).sectionUnderMouse =
        .RightSection ∧
      (scenarioInconsistent.updateSectionUnderMouse ⟨190, 100⟩).emitted =
        [.sectionUnderMouseChanged .RightSection] := by
  decide

/-- C18 (amended): `updateSectionUnderMouse` checks nothing about the geometry
and returns for every state, consistent or not: borders, resize-only borders,
title bar, client, buttons and the other traces keep their values, the Section
becomes the value of the decision tree (`sectionAt`), and at most the one signal
`sectionUnderMouseChanged` with that Section is emitted. -/
theorem classification_total (d : Decoration) (p : QPoint) :
    ((d.updateSectionUnderMouse p).borders = d.borders ∧
      (d.updateSectionUnderMouse p).resizeOnlyBorders = d.resizeOnlyBorders ∧
      (d.updateSectionUnderMouse p).titleBar = d.titleBar ∧
      (d.updateSectionUnderMouse p).client = d.client ∧
      (d.updateSectionUnderMouse p).buttons = d.buttons ∧
      (d.updateSectionUnderMouse p).bridgeUpdates = d.bridgeUpdates ∧
      (d.updateSectionUnderMouse p).delivered = d.delivered) ∧
    (d.updateSectionUnderMouse p).sectionUnderMouse = d.sectionAt p ∧
    ((d.updateSectionUnderMouse p).emitted = d.emitted ∨
      (d.updateSectionUnderMouse p).emitted =
        d.emitted ++ [.sectionUnderMouseChanged (d.sectionAt p)]) := by
  rw [Decoration.updateSectionUnderMouse_eq]
  unfold Decoration.setSectionUnderMouse
  split_ifs with h
  · exact ⟨⟨rfl, rfl, rfl, rfl, rfl, rfl, rfl⟩, h, Or.inl rfl⟩
  · exact ⟨⟨rfl, rfl, rfl, rfl, rfl, rfl, rfl⟩, rfl, Or.inr rfl⟩

/-! ### Button group layout -/

namespace DecorationButtonGroup

theorem placeFrom_visible_length (s y : ℚ) :
    ∀ (bs : List DecorationButton) (x : ℚ),
      ((placeFrom s y x bs).filter (fun b => b.visible)).length =
        (bs.filter (fun b => b.visible)).length := by
  intro bs
  induction bs with
  | nil => intro x; rfl
  | cons c rest ih =>
    intro x
    by_cases hv : c.visible = true
    · simp [placeFrom, hv, ih]
    · simp [placeFrom, hv, ih]

theorem placeFrom_leading_edge (s y w : ℚ) :
    ∀ (bs : List DecorationButton) (x : ℚ) (i : Nat) (b : DecorationButton),
      (∀ c ∈ bs, c.visible = true → c.geometry.w = w) →
      ((placeFrom s y x bs).filter (fun b => b.visible))[i]? = some b →
      b.geometry.xp = x + i * (w + s) ∧ b.geometry.w = w := by
  intro bs
  induction bs with
  | nil => intro x i b _ h; simp [placeFrom] at h
  | cons c rest ih =>
    intro x i b hall h
    have hrest : ∀ c0 ∈ rest, c0.visible = true → c0.geometry.w = w :=
      fun c0 hc0 => hall c0 (List.mem_cons_of_mem c hc0)
    by_cases hv : c.visible = true
    · have hcw : c.geometry.w = w := hall c (List.mem_cons_self c rest) hv
      simp only [placeFrom, hv, if_true, List.filter_cons_of_pos] at h
      cases i with
      | zero =>
        simp only [List.getElem?_cons_zero, Option.some.injEq] at h
        subst h
        simp [hcw]
      | succ i =>
        simp only [List.getElem?_cons_succ] at h
        obtain ⟨h1, h2⟩ := ih (x + c.geometry.w + s) i b hrest h
        refine ⟨?_, h2⟩
        rw [h1, hcw]
        push_cast
        ring
    · simp only [placeFrom, hv, Bool.false_eq_true, if_false] at h
      rw [List.filter_cons_of_neg (by simpa using hv)] at h
      exact ih x i b hrest h

theorem foldl_united (s w : ℚ) (hw : 0 ≤ w) (hs : 0 ≤ s) :
    ∀ (rs : List QRectF) (acc : QRectF), 0 ≤ acc.w →
      (∀ (i : Nat) (r : QRectF), rs[i]? = some r →
        r.xp = acc.xp + acc.w + s + i * (w + s) ∧ r.w = w) →
      (rs.foldl QRectF.united acc).xp = acc.xp ∧
        (rs.foldl QRectF.united acc).w = acc.w + rs.length * (w + s) := by
  intro rs
  induction rs with
  | nil => intro acc _ _; simp
  | cons r rs ih =>
    intro acc hacc h
    obtain ⟨h0x, h0w⟩ := h 0 r (by simp)
    simp only [Nat.cast_zero, zero_mul, add_zero] at h0x
    have hx : (QRectF.united acc r).xp = acc.xp := by
      simp only [QRectF.united]
      exact min_eq_left (by linarith)
    have hwid : (QRectF.united acc r).w = acc.w + s + w := by
      simp only [QRectF.united]
      rw [min_eq_left (by linarith), max_eq_right (by linarith)]
      linarith
    have hnext : ∀ (i : Nat) (r0 : QRectF), rs[i]? = some r0 →
        r0.xp = (QRectF.united acc r).xp + (QRectF.united acc r).w + s + i * (w + s) ∧
          r0.w = w := by
      intro i r0 hr0
      obtain ⟨g1, g2⟩ := h (i + 1) r0 (by simpa using hr0)
      refine ⟨?_, g2⟩
      rw [g1, hx, hwid]
      push_cast
      ring
    obtain ⟨k1, k2⟩ := ih (QRectF.united acc r) (by rw [hwid]; linarith) hnext
    rw [List.foldl_cons]
    refine ⟨by rw [k1, hx], ?_⟩
    rw [k2, hwid, List.length_cons]
    push_cast
    ring

end DecorationButtonGroup

/-- C17: a Left-anchored group whose visible buttons all have width `w >= 0`,
with spacing `s >= 0` and `n >= 1` visible buttons.  After `relayout` the group's
geometry has width `n*w + (n-1)*s`, the group still has `n` visible buttons, and
the `i`-th visible button (counted from 0 in insertion order) has its leading
edge at `pos.x + i*(w+s)` and still has width `w`. -/
theorem left_group_layout (g : DecorationButtonGroup) (w : ℚ) (n : Nat)
    (hpos : g.position = .Left) (hw : 0 ≤ w) (hs : 0 ≤ g.spacing)
    (hall : ∀ b ∈ g.buttons, b.visible = true → b.geometry.w = w)
    (hn : (g.buttons.filter (fun b => b.visible)).length = n) (h1 : 1 ≤ n) :
    g.relayout.geometry.w = n * w + (n - 1) * g.spacing ∧
    (g.relayout.buttons.filter (fun b => b.visible)).length = n ∧
    (∀ (i : Nat) (b : DecorationButton),
      (g.relayout.buttons.filter (fun b => b.visible))[i]? = some b →
      b.geometry.xp = g.pos.xp + i * (w + g.spacing) ∧ b.geometry.w = w) := by
  have hb : g.relayout.buttons =
      DecorationButtonGroup.placeFrom g.spacing g.pos.yp g.pos.xp g.buttons := by
    simp only [DecorationButtonGroup.relayout, hpos]
  have hg : g.relayout.geometry = DecorationButtonGroup.unionOf g.pos
      ((g.relayout.buttons.filter (fun b => b.visible)).map (fun b => b.geometry)) := by
    simp only [DecorationButtonGroup.relayout, hpos]
  have hlen : (g.relayout.buttons.filter (fun b => b.visible)).length = n := by
    rw [hb, DecorationButtonGroup.placeFrom_visible_length, hn]
  have hedge : ∀ (i : Nat) (b : DecorationButton),
      (g.relayout.buttons.filter (fun b => b.visible))[i]? = some b →
      b.geometry.xp = g.pos.xp + i * (w + g.spacing) ∧ b.geometry.w = w := by
    intro i b h
    rw [hb] at h
    exact DecorationButtonGroup.placeFrom_leading_edge g.spacing g.pos.yp w g.buttons
      g.pos.xp i b hall h
  refine ⟨?_, hlen, hedge⟩
  rw [hg]
  generalize g.relayout.buttons.filter (fun b => b.visible) = L at hlen hedge
  cases L with
  | nil => simp at hlen; omega
  | cons b0 rest =>
    obtain ⟨a1, a2⟩ := hedge 0 b0 (by simp)
    simp only [Nat.cast_zero, zero_mul, add_zero] at a1
    have hrest : ∀ (i : Nat) (r : QRectF), (rest.map (fun b => b.geometry))[i]? = some r →
        r.xp = b0.geometry.xp + b0.geometry.w + g.spacing + i * (w + g.spacing) ∧ r.w = w := by
      intro i r hr
      rw [List.getElem?_map] at hr
      cases hb1 : rest[i]? with
      | none => rw [hb1] at hr; simp at hr
      | some b1 =>
        rw [hb1] at hr
        simp only [Option.map_some', Option.some.injEq] at hr
        subst hr
        obtain ⟨c1, c2⟩ := hedge (i + 1) b1 (by simpa using hb1)
        refine ⟨?_, c2⟩
        rw [c1, a1, a2]
        push_cast
        ring
    obtain ⟨_, k2⟩ := DecorationButtonGroup.foldl_united g.spacing w hw hs
      (rest.map (fun b => b.geometry)) b0.geometry (by rw [a2]; exact hw) hrest
    simp only [List.map_cons, DecorationButtonGroup.unionOf]
    rw [k2, a2, List.length_map]
    simp only [List.length_cons] at hlen
    rw [← hlen]
    push_cast
    ring

/-- Witness of C17: three buttons of width 20 with spacing 4, Left-anchored at
(0, 0): the leading edges are 0, 24, 48 and the geometry width is 68. -/
theorem left_group_layout_witness :
    groupOfThree.relayout.buttons.map (fun b => b.geometry.xp) = [0, 24, 48] ∧
      groupOfThree.relayout.geometry.w = 68 := by
  have h := left_group_layout groupOfThree 20 3 rfl (by norm_num)
    (by norm_num [groupOfThree])
    (by
      intro b hb hv
      simp only [groupOfThree, List.mem_cons, List.mem_singleton, List.not_mem_nil,
        or_false, or_self] at hb
      subst hb
      rfl)
    rfl (by norm_num)
  refine ⟨?_, ?_⟩
  · simp only [DecorationButtonGroup.relayout, groupOfThree, DecorationButtonGroup.placeFrom,
      button20]
    norm_num
  · rw [h.1]
    norm_num [groupOfThree]

/-! ### Maximization toggle and resize-only borders -/

theorem MockClient.requestToggleMaximization_client (c : MockClient) (m : MouseButtons) :
    (c.requestToggleMaximization m).1 =
      { c with
          m_maximizedHorizontally :=
            if testFlag m LeftButton || testFlag m MiddleButton then
              !c.m_maximizedHorizontally
            else c.m_maximizedHorizontally,
          m_maximizedVertically :=
            if testFlag m LeftButton || testFlag m RightButton then
              !c.m_maximizedVertically
            else c.m_maximizedVertically } := by
  obtain ⟨w, h, mh, mv⟩ := c
  unfold MockClient.requestToggleMaximization
  generalize testFlag m LeftButton = fl
  generalize testFlag m MiddleButton = fm
  generalize testFlag m RightButton = fr
  cases fl <;> cases fm <;> cases fr <;> cases mh <;> cases mv <;> rfl

/-- C21: for every maximization state and every button mask (every combination
of the left, middle and right bits, and any other bits), two calls of
`requestToggleMaximization` with the same mask restore both maximized flags;
the client ends as it started, at the level of the decoration and of the test
double. -/
theorem toggle_involution (d : Decoration) (m : MouseButtons) :
    ((d.requestToggleMaximization m).requestToggleMaximization m).client = d.client ∧
    ((d.requestToggleMaximization m).requestToggleMaximization
        m).client.isMaximizedHorizontally = d.client.isMaximizedHorizontally ∧
    ((d.requestToggleMaximization m).requestToggleMaximization
        m).client.isMaximizedVertically = d.client.isMaximizedVertically ∧
    (∀ c : MockClient,
      ((c.requestToggleMaximization m).1.requestToggleMaximization m).1 = c) := by
  have key : ∀ c : MockClient,
      ((c.requestToggleMaximization m).1.requestToggleMaximization m).1 = c := by
    intro c
    rw [MockClient.requestToggleMaximization_client,
      MockClient.requestToggleMaximization_client]
    obtain ⟨w, h, mh, mv⟩ := c
    generalize testFlag m LeftButton = fl
    generalize testFlag m MiddleButton = fm
    generalize testFlag m RightButton = fr
    cases fl <;> cases fm <;> cases fr <;> cases mh <;> cases mv <;> rfl
  have hd : ((d.requestToggleMaximization m).requestToggleMaximization m).client =
      d.client := key d.client
  exact ⟨hd, by rw [hd], by rw [hd], key⟩

/-- C22: the Section after `updateSectionUnderMouse(p)` does not depend on
`resizeOnlyBorders`: replacing the stored value by any other value, directly or
through `setResizeOnlyBorders`, gives the same Section for every point. -/
theorem resizeOnlyBorders_irrelevant (d : Decoration) (r : QMargins) (p : QPoint) :
    (({ d with resizeOnlyBorders := r } : Decoration).updateSectionUnderMouse
        p).sectionUnderMouse = (d.updateSectionUnderMouse p).sectionUnderMouse ∧
    ((d.setResizeOnlyBorders r).updateSectionUnderMouse p).sectionUnderMouse =
      (d.updateSectionUnderMouse p).sectionUnderMouse := by
  simp only [Decoration.updateSectionUnderMouse_section]
  refine ⟨rfl, ?_⟩
  unfold Decoration.setResizeOnlyBorders
  split_ifs <;> rfl

end KDecoration2
